import Mathlib

/-!
Shallow embedding of the timestamp-resolution and deduplicated-placement
engine of the photo_backup repository (package `photoarc`), together with
proofs about the claims of its design specification.

Conventions of the embedding:
* Python strings are Lean `String`s; character-level operations
  (`str.split`, `str.replace`, `str.strip`, regex matching) are implemented
  on `String.data`.
* The filesystem is a total map from paths to a `FileState`
  (absent / existing-but-unreadable / existing with a content digest);
  `os.path.exists`, MD5 digesting and `shutil.copy2` are interpreted
  against this map.  MD5 digests are modelled as the abstract content
  value itself (accidental collisions are not modelled).
* Unbounded `while True` loops are given explicit fuel; exhausting the
  fuel models divergence of the loop.
* `datetime.fromisoformat` is modelled at second precision
  (`YYYY-MM-DDTHH:MM:SS`, calendar-validated, as produced by every
  timestamp source of the engine); `uuid.uuid4().hex[:8]` draws are an
  input stream of tokens.
-/

namespace PhotoArc

/-! ## Date-time values (models `datetime.datetime` at second precision) -/

/-- Leap-year rule of the proleptic Gregorian calendar used by `datetime`. -/
def isLeapYear (y : Nat) : Bool :=
  y % 4 == 0 && (y % 100 != 0 || y % 400 == 0)

/-- Number of days of month `m` in year `y`, as validated by `datetime`. -/
def daysInMonth (y m : Nat) : Nat :=
  if m = 2 then (if isLeapYear y then 29 else 28)
  else if m = 4 ∨ m = 6 ∨ m = 9 ∨ m = 11 then 30
  else 31

/-- A date-time value at second precision. -/
structure DT where
  year : Nat
  month : Nat
  day : Nat
  hour : Nat
  minute : Nat
  second : Nat
deriving DecidableEq

/-- Injective (on calendar-valid values) numeric key realising the
`datetime` comparison order. -/
def DT.key (d : DT) : Nat :=
  ((((d.year * 13 + d.month) * 32 + d.day) * 24 + d.hour) * 60 + d.minute) * 60
    + d.second

/-- Numeric value of a decimal digit character. -/
def dig (c : Char) : Nat := c.toNat - 48

/-- Zero-pad a number to two digits, as `str(n).zfill(2)` does. -/
def pad2 (n : Nat) : String :=
  if n < 10 then "0" ++ toString n else toString n

/-- Zero-pad a number to four digits, as the `%04d` year field of
`datetime.isoformat` does. -/
def pad4 (n : Nat) : String :=
  if n < 10 then "000" ++ toString n
  else if n < 100 then "00" ++ toString n
  else if n < 1000 then "0" ++ toString n
  else toString n

/-- Models `datetime.isoformat()` for whole-second values. -/
def isoOfDT (d : DT) : String :=
  pad4 d.year ++ "-" ++ pad2 d.month ++ "-" ++ pad2 d.day ++ "T"
    ++ pad2 d.hour ++ ":" ++ pad2 d.minute ++ ":" ++ pad2 d.second

/-- Models `datetime.fromisoformat` on second-precision strings
`YYYY-MM-DDTHH:MM:SS` (the shape every timestamp string produced inside
the engine has): any other string is rejected with `ValueError`,
represented by `none`.  Calendar fields are validated the way `datetime`
validates them. -/
def parseISO (s : String) : Option DT :=
  match s.data with
  | [a, b, c, d, s1, e, f, s2, g, h, s3, i, j, s4, k, l, s5, m, n] =>
    if a.isDigit ∧ b.isDigit ∧ c.isDigit ∧ d.isDigit ∧ s1 = '-'
        ∧ e.isDigit ∧ f.isDigit ∧ s2 = '-' ∧ g.isDigit ∧ h.isDigit
        ∧ s3 = 'T' ∧ i.isDigit ∧ j.isDigit ∧ s4 = ':' ∧ k.isDigit ∧ l.isDigit
        ∧ s5 = ':' ∧ m.isDigit ∧ n.isDigit then
      let y := ((dig a * 10 + dig b) * 10 + dig c) * 10 + dig d
      let mo := dig e * 10 + dig f
      let da := dig g * 10 + dig h
      let ho := dig i * 10 + dig j
      let mi := dig k * 10 + dig l
      let se := dig m * 10 + dig n
      if 1 ≤ y ∧ 1 ≤ mo ∧ mo ≤ 12 ∧ 1 ≤ da ∧ da ≤ daysInMonth y mo
          ∧ ho ≤ 23 ∧ mi ≤ 59 ∧ se ≤ 59 then
        some ⟨y, mo, da, ho, mi, se⟩
      else none
    else none
  | _ => none

/-! ## Filename date extraction
(`photoarc/core/utils.py`, `get_date_from_filename`)

The two regular expressions of the source are
`(19\d\d|20\d\d)([ ._-]*)(0[1-9]|1[0-2])([ ._-]*)(0[1-9]|[12]\d|3[01])`
optionally followed by
`([ ._-]*)(20|21|22|23|[0-1]\d)([ ._-]*)([0-5]\d)([ ._-]*)([0-5]\d)`.
Every alternation has fixed-length branches matching disjoint strings and
the separator class `[ ._-]` is disjoint from the digit classes that
follow each separator star, so greedy max-munch matching without
backtracking computes exactly the leftmost `re.search` match; the
deterministic matchers below implement that. -/

/-- Character class `[ ._-]` of the flexible separators. -/
def isSepChar (c : Char) : Bool :=
  c == ' ' || c == '.' || c == '_' || c == '-'

/-- Digit range test on a character (`lo` and `hi` are character codes). -/
def inRange (c : Char) (lo hi : Nat) : Bool :=
  if lo ≤ c.toNat ∧ c.toNat ≤ hi then true else false

/-- Group `(19\d\d|20\d\d)`: a year 1900–2099. -/
def yearGrp : List Char → Option (List Char × List Char)
  | a :: b :: c :: d :: rest =>
    if ((a = '1' ∧ b = '9') ∨ (a = '2' ∧ b = '0')) ∧ c.isDigit ∧ d.isDigit then
      some ([a, b, c, d], rest)
    else none
  | _ => none

/-- Group `(0[1-9]|1[0-2])`: a month. -/
def monthGrp : List Char → Option (List Char × List Char)
  | a :: b :: rest =>
    if (a = '0' ∧ inRange b 49 57) ∨ (a = '1' ∧ inRange b 48 50) then
      some ([a, b], rest)
    else none
  | _ => none

/-- Group `(0[1-9]|[12]\d|3[01])`: a day. -/
def dayGrp : List Char → Option (List Char × List Char)
  | a :: b :: rest =>
    if (a = '0' ∧ inRange b 49 57) ∨ ((a = '1' ∨ a = '2') ∧ b.isDigit)
        ∨ (a = '3' ∧ (b = '0' ∨ b = '1')) then
      some ([a, b], rest)
    else none
  | _ => none

/-- Group `(20|21|22|23|[0-1]\d)`: an hour. -/
def hourGrp : List Char → Option (List Char × List Char)
  | a :: b :: rest =>
    if (a = '2' ∧ inRange b 48 51) ∨ ((a = '0' ∨ a = '1') ∧ b.isDigit) then
      some ([a, b], rest)
    else none
  | _ => none

/-- Group `([0-5]\d)`: a minute or second. -/
def minSecGrp : List Char → Option (List Char × List Char)
  | a :: b :: rest =>
    if inRange a 48 53 ∧ b.isDigit then some ([a, b], rest) else none
  | _ => none

/-- Match the full date+time pattern at the current position and build
`f"{year}-{month}-{day}T{hour}:{minute}:{second}"` from the groups. -/
def matchDateTimeAt (cs : List Char) : Option String :=
  match yearGrp cs with
  | none => none
  | some (y, r1) =>
    match monthGrp (r1.dropWhile isSepChar) with
    | none => none
    | some (mo, r2) =>
      match dayGrp (r2.dropWhile isSepChar) with
      | none => none
      | some (da, r3) =>
        match hourGrp (r3.dropWhile isSepChar) with
        | none => none
        | some (ho, r4) =>
          match minSecGrp (r4.dropWhile isSepChar) with
          | none => none
          | some (mi, r5) =>
            match minSecGrp (r5.dropWhile isSepChar) with
            | none => none
            | some (se, _) =>
              some (String.mk (y ++ '-' :: mo ++ '-' :: da ++ 'T' :: ho
                ++ ':' :: mi ++ ':' :: se))

/-- Match the date-only pattern at the current position and build
`f"{year}-{month}-{day}T00:00:00"` from the groups. -/
def matchDateAt (cs : List Char) : Option String :=
  match yearGrp cs with
  | none => none
  | some (y, r1) =>
    match monthGrp (r1.dropWhile isSepChar) with
    | none => none
    | some (mo, r2) =>
      match dayGrp (r2.dropWhile isSepChar) with
      | none => none
      | some (da, _) =>
        some (String.mk (y ++ '-' :: mo ++ '-' :: da
          ++ "T00:00:00".data))

/-- Leftmost search of a position matcher, as `re.search` does (the
patterns cannot match the empty string, so the end position is moot). -/
def searchAt (m : List Char → Option String) : List Char → Option String
  | [] => none
  | c :: rest' =>
    match m (c :: rest') with
    | some r => some r
    | none => searchAt m rest'

/-- `get_date_from_filename` of `photoarc/core/utils.py`: try the full
date+time pattern anywhere in the filename, then the date-only pattern;
a date-only match synthesizes midnight. -/
def get_date_from_filename (filename : String) : Option String :=
  match searchAt matchDateTimeAt filename.data with
  | some r => some r
  | none => searchAt matchDateAt filename.data

/-! ## EXIF datetime extraction
(`photoarc/core/photo_processor.py`, `_extract_exif_datetime` and
`_convert_to_iso_format`).  EXIF data is the field-name → value mapping
produced by `_get_exif_data`; `none` covers the cases where `exifread`
yields no tags (then `_get_exif_data` returns `None` / a falsy dict). -/

/-- EXIF data as returned by `_get_exif_data`: a mapping from tag name to
string value. -/
abbrev ExifData := String → Option String

/-- Python whitespace stripped by `str.strip()`. -/
def isPyWs (c : Char) : Bool :=
  c == ' ' || c == '\t' || c == '\n' || c == '\x0d' || c == '\x0b' || c == '\x0c'

/-- Models `str(value).replace("\x00", "").strip()`. -/
def cleanExifValue (s : String) : String :=
  String.mk ((((s.data.filter (fun c => c != '\x00')).dropWhile
    isPyWs).reverse.dropWhile isPyWs).reverse)

/-- Split a character list at every occurrence of `sep`, keeping empty
pieces, as Python `str.split(sep)` with a one-character separator does. -/
def splitChar (sep : Char) : List Char → List (List Char)
  | [] => [[]]
  | c :: rest =>
    let r := splitChar sep rest
    if c == sep then [] :: r
    else
      match r with
      | h :: t => (c :: h) :: t
      | [] => [[c]]

/-- `_convert_to_iso_format`: unpack `date_part, time_part = s.split(" ")`
(raising `ValueError`, modelled as `none`, unless there are exactly two
parts), replace `:` by `-` in the date part and join with `T`. -/
def convert_to_iso_format (s : String) : Option String :=
  match splitChar ' ' s.data with
  | [d, t] =>
    some (String.mk (d.map (fun c => if c == ':' then '-' else c) ++ 'T' :: t))
  | _ => none

/-- One iteration of the field loop of `_extract_exif_datetime`: if the
field is present, clean its value; an empty cleaned value or a failed
conversion makes the loop move on to the next field (`none`). -/
def tryExifField (e : ExifData) (field : String) : Option String :=
  match e field with
  | none => none
  | some v =>
    let dt := cleanExifValue v
    if dt = "" then none else convert_to_iso_format dt

/-- `_extract_exif_datetime`: try `EXIF DateTimeOriginal`,
`EXIF DateTimeDigitized`, `Image DateTime` in that fixed order; the first
field with a non-empty convertible value wins. -/
def extract_exif_datetime (e : ExifData) : Option String :=
  match tryExifField e "EXIF DateTimeOriginal" with
  | some t => some t
  | none =>
    match tryExifField e "EXIF DateTimeDigitized" with
    | some t => some t
    | none => tryExifField e "Image DateTime"

/-! ## Reconciliation (`_get_earliest_time`, `_get_photo_modification_time`) -/

/-- Models `filename_time and filename_time.endswith("T00:00:00")`. -/
def truthyMidnight : Option String → Bool
  | some ft => ft != "" && List.isSuffixOf "T00:00:00".data ft.data
  | none => false

/-- `_get_earliest_time`: collect the non-`None` candidates in the order
EXIF, filename, modification time; if the filename candidate is a
synthesized-midnight value and another candidate exists, drop the
filename candidate; parse the survivors (skipping unparseable ones) and
return the earliest, re-rendered by `isoformat`. -/
def get_earliest_time (exifT fnT modT : Option String) : Option String :=
  let times := [exifT, fnT, modT].filterMap id
  if times.isEmpty then none
  else
    let times2 :=
      if truthyMidnight fnT then
        let nft := [exifT, modT].filterMap id
        if nft.isEmpty then times else nft
      else times
    match times2.filterMap parseISO with
    | [] => none
    | d :: ds =>
      some (isoOfDT (ds.foldl (fun a b => if b.key < a.key then b else a) d))

/-- `_get_photo_modification_time` with `exifread` available and no I/O
failure inside the EXIF reader (the reader catches its own errors): if
the EXIF data yields a datetime it is returned immediately; otherwise the
filename-derived and filesystem-modification-time candidates are
reconciled by `_get_earliest_time` with no EXIF candidate. -/
def get_photo_modification_time (exif : Option ExifData)
    (fnT modT : Option String) : Option String :=
  match exif with
  | some e =>
    match extract_exif_datetime e with
    | some t => some t
    | none => get_earliest_time none fnT modT
  | none => get_earliest_time none fnT modT

/-- `_get_video_creation_time` of `photoarc/core/video_processor.py`:
the filename-derived timestamp wins unconditionally; the filesystem
modification time is consulted only when no filename pattern matched
(`get_date_from_filename` never returns an empty string, so Python
truthiness coincides with `Option` matching). -/
def get_video_creation_time (fnT modT : Option String) : Option String :=
  match fnT with
  | some t => some t
  | none => modT

/-! ## Destination templates (`build_destination_path` of
`photoarc/core/utils.py`)

A Python format string is represented by its parsed shape: a list of
literal pieces and placeholder tokens.  `str.format` raises `KeyError`
when the template uses a token the call does not supply; the directory
format call supplies only `year`, `month` and `day`. -/

/-- Exception kinds relevant to the engine's `try`/`except` clauses. -/
inductive ExcKind
  | osError
  | ioError
  | sqliteError
  | valueError
  | keyError
deriving DecidableEq

/-- One piece of a format string: a literal or a placeholder. -/
inductive TemplateItem
  | lit (s : String)
  | year
  | month
  | day
  | hour
  | minute
  | second
  | originalfile
  | extension
deriving DecidableEq

/-- A parsed format string. -/
abbrev Template := List TemplateItem

/-- Index of the last `.` in a character list, if any. -/
def lastDotIdx (cs : List Char) : Option Nat :=
  match cs.reverse.findIdx? (· == '.') with
  | some r => some (cs.length - 1 - r)
  | none => none

/-- Models `os.path.splitext`: split at the last dot, except that a
basename consisting only of leading dots before that position is not
split. -/
def splitext (s : String) : String × String :=
  let cs := s.data
  match lastDotIdx cs with
  | none => (s, "")
  | some i =>
    if (cs.take i).all (fun ch => ch == '.') then (s, "")
    else (String.mk (cs.take i), String.mk (cs.drop i))

/-- The directory format call
`path_format.format(year=…, month=…, day=…)`: any other token raises
`KeyError`. -/
def formatDirTemplate (dt : DT) : Template → Except ExcKind String
  | [] => .ok ""
  | item :: rest =>
    match item with
    | .lit s =>
      match formatDirTemplate dt rest with
      | .ok r => .ok (s ++ r)
      | .error k => .error k
    | .year =>
      match formatDirTemplate dt rest with
      | .ok r => .ok (toString dt.year ++ r)
      | .error k => .error k
    | .month =>
      match formatDirTemplate dt rest with
      | .ok r => .ok (pad2 dt.month ++ r)
      | .error k => .error k
    | .day =>
      match formatDirTemplate dt rest with
      | .ok r => .ok (pad2 dt.day ++ r)
      | .error k => .error k
    | _ => .error .keyError

/-- The filename format call, which supplies every token:
`originalfile` is the stem, `extension` the extension without its dot,
`year` is `str(dt.year)` (unpadded) and the remaining numeric tokens are
`zfill(2)`-padded. -/
def formatNameTemplate (dt : DT) (stem ext : String) : Template → String
  | [] => ""
  | item :: rest =>
    (match item with
      | .lit s => s
      | .year => toString dt.year
      | .month => pad2 dt.month
      | .day => pad2 dt.day
      | .hour => pad2 dt.hour
      | .minute => pad2 dt.minute
      | .second => pad2 dt.second
      | .originalfile => stem
      | .extension => ext.drop 1) ++ formatNameTemplate dt stem ext rest

/-- `build_destination_path`: parse the created time
(`datetime.fromisoformat`, raising `ValueError` on failure), format the
directory (raising `KeyError` on a non-date token), split the original
filename and format the destination filename. -/
def build_destination_path (created_time original_filename : String)
    (path_format filename_format : Template) : Except ExcKind (String × String) :=
  match parseISO created_time with
  | none => .error .valueError
  | some dt =>
    match formatDirTemplate dt path_format with
    | .error k => .error k
    | .ok p =>
      let se := splitext original_filename
      .ok (p, formatNameTemplate dt se.1 se.2 filename_format)

/-! ## Filesystem model -/

/-- State of one path of the filesystem: nothing there, an existing file
whose bytes cannot be read (permission/I/O error on open or read), or an
existing readable file with content digest `d`. -/
inductive FileState
  | absent
  | unreadable
  | present (d : Nat)
deriving DecidableEq

/-- The filesystem: a map from path strings to file states. -/
abbrev FS := String → FileState

/-- Models `os.path.exists`. -/
def pathExists (fs : FS) (p : String) : Bool :=
  match fs p with
  | .absent => false
  | _ => true

/-- `is_file_already_processed_by_path` of `photoarc/core/utils.py`:
plain existence of the destination path. -/
def is_file_already_processed_by_path (fs : FS) (p : String) : Bool :=
  pathExists fs p

/-- `get_file_md5`: the content digest, or `None` when the file is absent
or the read raises `IOError` (the function catches it and returns
`None`). -/
def get_file_md5 (fs : FS) (p : String) : Option Nat :=
  match fs p with
  | .present d => some d
  | _ => none

/-- `is_same_file`: `bool(source_md5 and dest_md5 and source_md5 ==
dest_md5)` — true only when both digests were computed and agree. -/
def is_same_file (fs : FS) (source_path dest_path : String) : Bool :=
  match get_file_md5 fs source_path, get_file_md5 fs dest_path with
  | some a, some b => a == b
  | _, _ => false

/-- Write a file state at a path. -/
def FS.update (fs : FS) (p : String) (st : FileState) : FS :=
  fun q => if q = p then st else fs q

/-- Models `os.path.join` for the relative components the engine joins. -/
def joinPath (a b : String) : String := a ++ "/" ++ b

/-- Models Python `str.startswith` / the SQL pattern `LIKE 'a%'`. -/
def strPrefix (a b : String) : Bool :=
  List.isPrefixOf a.data b.data

/-! ## Collision resolution
(`generate_unique_filename_with_content_check` of
`photoarc/core/utils.py`).  The `while True` loop carries fuel; `none`
models divergence.  `uuid.uuid4().hex[:8]` draws are supplied by the
token stream `u`, indexed by the counter value at the draw. -/

/-- Zero-pad a counter to three digits, as `f"{counter:03d}"` does
(counters beyond 999 keep all their digits). -/
def pad3 (n : Nat) : String :=
  if n < 10 then "00" ++ toString n
  else if n < 100 then "0" ++ toString n
  else toString n

/-- `f"{base_name}_{counter:03d}{ext}"`. -/
def suffixName (base : String) (c : Nat) (ext : String) : String :=
  base ++ "_" ++ pad3 c ++ ext

/-- `f"{base_name}_{uuid.uuid4().hex[:8]}{ext}"` with token `tok`. -/
def uuidName (base tok ext : String) : String :=
  base ++ "_" ++ tok ++ ext

/-- The `while True` loop of
`generate_unique_filename_with_content_check`: build `name_ccc`, return
it if absent, reuse it if the content matches, otherwise bump the counter
and, past 999, additionally try a fresh random-token name, returning it
if absent. -/
def genLoop (fs : FS) (src dir base ext : String) (u : Nat → String) :
    Nat → Nat → Option String
  | _, 0 => none
  | c, fuel + 1 =>
    let full := joinPath dir (suffixName base c ext)
    if pathExists fs full = false then some full
    else if is_same_file fs src full then some full
    else
      let c' := c + 1
      if 999 < c' then
        let ufull := joinPath dir (uuidName base (u c') ext)
        if pathExists fs ufull = false then some ufull
        else genLoop fs src dir base ext u c' fuel
      else genLoop fs src dir base ext u c' fuel

/-- `generate_unique_filename_with_content_check`: use the original name
if absent, reuse it if the content already matches, otherwise search
suffixed candidates. -/
def generate_unique_filename_with_content_check (fuel : Nat) (u : Nat → String)
    (fs : FS) (base_dir dest_path filename source_file_path : String) :
    Option String :=
  let be := splitext filename
  let dir := joinPath base_dir dest_path
  let orig := joinPath dir filename
  if pathExists fs orig = false then some orig
  else if is_same_file fs source_file_path orig then some orig
  else genLoop fs source_file_path dir be.1 be.2 u 1 fuel

/-! ## The photo pass (`photoarc/core/photo_processor.py`) -/

/-- An archived record, reduced to the two columns the resume logic reads
back (`source_file_path`, `destination_file_path`). -/
abbrev Rec := String × String

/-- The `photos` table: the append-only list of records. -/
abbrev DB := List Rec

/-- Per-kind configuration as read from the YAML config. -/
structure Config where
  sourceDir : String
  destDir : String
  supportedTypes : List String
  pathFormat : Template
  nameFormat : Template
  overwrite : Bool

/-- Per-path inputs the engine reads from the outside world: the EXIF
mapping of `_get_exif_data` (already `None` for missing/empty data) and
the `os.path.getmtime`-derived ISO string of
`get_file_modification_time` (`None` when the call raises). -/
structure Oracles where
  exif : String → Option ExifData
  mtime : String → Option String

/-- Outcome of processing one file. -/
inductive POut
  | skipped
  | copied
  | error
  | raised (k : ExcKind)
  | diverged
deriving DecidableEq

/-- Placement decision reached by `_process_single_photo` before the
copy: skip, fail, raise an uncaught exception, diverge in the collision
loop, or copy to a destination path. -/
inductive PDecision
  | dskip
  | derror
  | draise (k : ExcKind)
  | ddiverge
  | dcopy (full : String)
deriving DecidableEq

/-- ASCII lowering of one character, as `str.lower` does on the ASCII
filenames and extension lists involved. -/
def lowerChar (c : Char) : Char :=
  if 65 ≤ c.toNat ∧ c.toNat ≤ 90 then Char.ofNat (c.toNat + 32) else c

/-- Models `file.lower()`. -/
def lowerStr (s : String) : String := String.mk (s.data.map lowerChar)

/-- Models `file.lower().endswith(tuple_of_supported_types)`. -/
def isSupported (types : List String) (f : String) : Bool :=
  types.any (fun t => List.isSuffixOf t.data (lowerStr f).data)

/-- The decision logic of `_process_single_photo` up to (and excluding)
the copy: resolve the timestamp, build the destination path
(`ValueError`/`KeyError` escape the method's `except (OSError, IOError)`
clause), then compare against the destination tree, consulting
`generate_unique_filename_with_content_check` on a collision under a
non-overwrite policy and re-checking the generated candidate. -/
def photoDecision (cfg : Config) (o : Oracles) (u : Nat → String) (fuel : Nat)
    (fs : FS) (root filename : String) : PDecision :=
  let fp := joinPath root filename
  match get_photo_modification_time (o.exif fp)
      (get_date_from_filename filename) (o.mtime fp) with
  | none => .derror
  | some ts =>
    match build_destination_path ts filename cfg.pathFormat cfg.nameFormat with
    | .error k => .draise k
    | .ok pf =>
      let full := joinPath (joinPath cfg.destDir pf.1) pf.2
      if is_file_already_processed_by_path fs full then
        if is_same_file fs fp full then .dskip
        else if cfg.overwrite = false then
          match generate_unique_filename_with_content_check fuel u fs
              cfg.destDir pf.1 pf.2 fp with
          | none => .ddiverge
          | some full2 =>
            if is_file_already_processed_by_path fs full2 then
              if is_same_file fs fp full2 then .dskip
              else .dcopy full2
            else .dcopy full2
        else .dcopy full
      else .dcopy full

/-- `_copy_and_record_file`: `shutil.copy2` then the database insert.  A
source that cannot be read makes the copy raise `IOError`, caught by the
method's blanket `except` into the "error" result; otherwise the
destination receives the source content and a record is produced. -/
def copy_and_record_file (fs : FS) (srcPath destPath : String) :
    POut × FS × Option Rec :=
  match get_file_md5 fs srcPath with
  | none => (.error, fs, none)
  | some d => (.copied, fs.update destPath (.present d), some (srcPath, destPath))

/-- `_process_single_photo`: act on the decision.  Only the copy branch
touches the filesystem or produces a record. -/
def process_single_photo (cfg : Config) (o : Oracles) (u : Nat → String)
    (fuel : Nat) (fs : FS) (root filename : String) : POut × FS × Option Rec :=
  match photoDecision cfg o u fuel fs root filename with
  | .dskip => (.skipped, fs, none)
  | .derror => (.error, fs, none)
  | .draise k => (.raised k, fs, none)
  | .ddiverge => (.diverged, fs, none)
  | .dcopy full => copy_and_record_file fs (joinPath root filename) full

/-- Pass counters (`file_count`, `copy_count`, `skip_count`,
`error_count`). -/
structure Counts where
  files : Nat
  copies : Nat
  skips : Nat
  errors : Nat
deriving DecidableEq

/-- All counters zero, as at the start of a pass. -/
def Counts.zero : Counts := ⟨0, 0, 0, 0⟩

/-- Result of one whole pass: normal completion with the final filesystem,
records and counters; abortion of the walk by an uncaught exception; or a
hang of a collision loop (fuel exhaustion of the model). -/
inductive PassResult
  | done (fs : FS) (db : DB) (c : Counts)
  | aborted (k : ExcKind)
  | hung

/-- `_load_processed_files` via `Database.get_processed_files`: the source
paths of all records matching `LIKE 'source_dir%'`. -/
def loadProcessed (db : DB) (sourceDir : String) : List String :=
  (db.filter (fun r => strPrefix sourceDir r.1)).map (fun r => r.1)

/-- The per-file loop of `process_photos` over the walk output: skip
non-supported names, skip paths in the processed set, otherwise process
the file; every exception is converted to an error count by the blanket
`except Exception` clause, and the processed set learns each copied
path.  `self.file_count += 1` sits after the `_process_single_photo`
call inside the `try`, so an escaped exception increments only the error
counter, not the file counter. -/
def photoLoop (cfg : Config) (o : Oracles) (u : Nat → String) (fuel : Nat) :
    List (String × String) → FS → DB → List String → Counts → PassResult
  | [], fs, db, _, c => .done fs db c
  | (root, f) :: rest, fs, db, proc, c =>
    if isSupported cfg.supportedTypes f then
      let fp := joinPath root f
      if fp ∈ proc then
        photoLoop cfg o u fuel rest fs db proc
          { c with files := c.files + 1, skips := c.skips + 1 }
      else
        match process_single_photo cfg o u fuel fs root f with
        | (.skipped, fs', _) =>
          photoLoop cfg o u fuel rest fs' db proc
            { c with files := c.files + 1, skips := c.skips + 1 }
        | (.copied, fs', rec) =>
          photoLoop cfg o u fuel rest fs' (db ++ rec.toList) (fp :: proc)
            { c with files := c.files + 1, copies := c.copies + 1 }
        | (.error, fs', _) =>
          photoLoop cfg o u fuel rest fs' db proc
            { c with files := c.files + 1, errors := c.errors + 1 }
        | (.raised _, fs', _) =>
          photoLoop cfg o u fuel rest fs' db proc
            { c with errors := c.errors + 1 }
        | (.diverged, _, _) => .hung
    else photoLoop cfg o u fuel rest fs db proc c

/-- `process_photos`: load the processed set from the records and fold
over the (already walked and exclusion-pruned) file sequence with fresh
counters. -/
def process_photos (cfg : Config) (o : Oracles) (u : Nat → String) (fuel : Nat)
    (files : List (String × String)) (fs : FS) (db : DB) : PassResult :=
  photoLoop cfg o u fuel files fs db (loadProcessed db cfg.sourceDir) Counts.zero

/-! ## The video pass (`photoarc/core/video_processor.py`) -/

/-- The video collision loop: `while os.path.exists(full): full =
dir/name_ccc; counter += 1` — the first non-existing numbered candidate,
with no content check and no random fallback (fuel models the unbounded
search). -/
def videoSuffixLoop (fs : FS) (dir base ext : String) : Nat → Nat → Option String
  | _, 0 => none
  | c, fuel + 1 =>
    let full := joinPath dir (suffixName base c ext)
    if pathExists fs full = false then some full
    else videoSuffixLoop fs dir base ext (c + 1) fuel

/-- The decision logic of `_process_single_video`: filename-first
timestamp, destination build, then the content comparison and the
numbered-rename loop under a non-overwrite policy. -/
def videoDecision (cfg : Config) (o : Oracles) (fuel : Nat) (fs : FS)
    (root filename : String) : PDecision :=
  let fp := joinPath root filename
  match get_video_creation_time (get_date_from_filename filename)
      (o.mtime fp) with
  | none => .derror
  | some ts =>
    match build_destination_path ts filename cfg.pathFormat cfg.nameFormat with
    | .error k => .draise k
    | .ok pf =>
      let full := joinPath (joinPath cfg.destDir pf.1) pf.2
      if pathExists fs full then
        if is_same_file fs fp full then .dskip
        else if cfg.overwrite = false then
          let be := splitext pf.2
          match videoSuffixLoop fs (joinPath cfg.destDir pf.1) be.1 be.2 1 fuel with
          | none => .ddiverge
          | some full2 => .dcopy full2
        else .dcopy full
      else .dcopy full

/-- Exception kinds caught by the video processor's
`except (OSError, IOError, sqlite3.Error)` clauses. -/
def vCaught (k : ExcKind) : Bool :=
  k == .osError || k == .ioError || k == .sqliteError

/-- `_process_single_video`: act on the decision; the method-level
`except (OSError, IOError, sqlite3.Error)` converts only those kinds to
the "error" result — any other exception (e.g. `ValueError` from
`build_destination_path`) propagates to the caller. -/
def process_single_video (cfg : Config) (o : Oracles) (fuel : Nat) (fs : FS)
    (root filename : String) : POut × FS × Option Rec :=
  match videoDecision cfg o fuel fs root filename with
  | .dskip => (.skipped, fs, none)
  | .derror => (.error, fs, none)
  | .draise k => if vCaught k then (.error, fs, none) else (.raised k, fs, none)
  | .ddiverge => (.diverged, fs, none)
  | .dcopy full => copy_and_record_file fs (joinPath root filename) full

/-- The per-file loop of `process_videos`: identical walk structure to the
photo loop, but the loop-level `except` clause again catches only
`(OSError, IOError, sqlite3.Error)` — any other exception aborts the
whole walk.  As in the photo loop, `self.file_count += 1` sits inside the
`try` after the call, so a caught loop-level exception increments only
the error counter. -/
def videoLoop (cfg : Config) (o : Oracles) (fuel : Nat) :
    List (String × String) → FS → DB → List String → Counts → PassResult
  | [], fs, db, _, c => .done fs db c
  | (root, f) :: rest, fs, db, proc, c =>
    if isSupported cfg.supportedTypes f then
      let fp := joinPath root f
      if fp ∈ proc then
        videoLoop cfg o fuel rest fs db proc
          { c with files := c.files + 1, skips := c.skips + 1 }
      else
        match process_single_video cfg o fuel fs root f with
        | (.skipped, fs', _) =>
          videoLoop cfg o fuel rest fs' db proc
            { c with files := c.files + 1, skips := c.skips + 1 }
        | (.copied, fs', rec) =>
          videoLoop cfg o fuel rest fs' (db ++ rec.toList) (fp :: proc)
            { c with files := c.files + 1, copies := c.copies + 1 }
        | (.error, fs', _) =>
          videoLoop cfg o fuel rest fs' db proc
            { c with files := c.files + 1, errors := c.errors + 1 }
        | (.raised k, fs', _) =>
          if vCaught k then
            videoLoop cfg o fuel rest fs' db proc
              { c with errors := c.errors + 1 }
          else .aborted k
        | (.diverged, _, _) => .hung
    else videoLoop cfg o fuel rest fs db proc c

/-- `process_videos`: load the processed set and fold. -/
def process_videos (cfg : Config) (o : Oracles) (fuel : Nat)
    (files : List (String × String)) (fs : FS) (db : DB) : PassResult :=
  videoLoop cfg o fuel files fs db (loadProcessed db cfg.sourceDir) Counts.zero

/-! ## Relations used by the pass theorems -/

/-- Destination-directory growth between two filesystem states: every
existing file keeps its state, and every change is confined to paths
under the destination directory.  This is the shape of the mutations a
non-overwrite photo pass performs. -/
def Grows (destDir : String) (fs fs' : FS) : Prop :=
  (∀ p, fs p ≠ .absent → fs' p = fs p)
    ∧ (∀ p, strPrefix (destDir ++ "/") p = false → fs' p = fs p)

/-- A decision that neither copies nor diverges: the file is skipped,
fails, or raises (and the photo loop converts a raise to an error). -/
def DecOSE (d : PDecision) : Prop :=
  d = .dskip ∨ d = .derror ∨ ∃ k, d = .draise k

/-- Tokens the directory format call can substitute without a
`KeyError`. -/
def dirTokenOnly : TemplateItem → Bool
  | .lit _ => true
  | .year => true
  | .month => true
  | .day => true
  | _ => false

/-- Total rendering of a directory template over date tokens only;
`formatDirTemplate` agrees with it on templates passing `dirTokenOnly`. -/
def renderDirTemplate (dt : DT) : Template → String
  | [] => ""
  | item :: rest =>
    (match item with
      | .lit s => s
      | .year => toString dt.year
      | .month => pad2 dt.month
      | .day => pad2 dt.day
      | _ => "") ++ renderDirTemplate dt rest

/-! ## Concrete scenario data for the closed evaluations -/

/-- Image-pass configuration: `year` directory template,
`originalfile.extension` filename template, no overwrite. -/
def exCfgP : Config :=
  ⟨"/src", "/dst", [".jpg"], [TemplateItem.year],
    [TemplateItem.originalfile, TemplateItem.lit ".", TemplateItem.extension],
    false⟩

/-- Video-pass configuration with the same templates. -/
def exCfgV : Config :=
  ⟨"/src", "/dst", [".mp4"], [TemplateItem.year],
    [TemplateItem.originalfile, TemplateItem.lit ".", TemplateItem.extension],
    false⟩

/-- Oracles for files with no EXIF data and an inaccessible modification
time. -/
def exNoOracles : Oracles := ⟨fun _ => none, fun _ => none⟩

/-- EXIF data carrying a calendar-invalid capture date (regex-shaped but
rejected by `datetime`). -/
def exExifBad : ExifData :=
  fun f => if f = "EXIF DateTimeOriginal" then some "2024:02:31 10:00:00" else none

/-- Oracles giving `/src/bad.jpg` the calendar-invalid EXIF data. -/
def exOracleBad : Oracles :=
  ⟨fun p => if p = "/src/bad.jpg" then some exExifBad else none, fun _ => none⟩

/-- Source tree for the video-abort evaluation. -/
def exFsV : FS := fun p =>
  if p = "/src/20240231.mp4" then .present 9
  else if p = "/src/good_20240101_101010.mp4" then .present 5
  else .absent

/-- Source tree for the photo-continues evaluation. -/
def exFsP : FS := fun p =>
  if p = "/src/bad.jpg" then .present 9
  else if p = "/src/good_20240101_101010.jpg" then .present 5
  else .absent

/-- A single readable, datable source file and an empty destination. -/
def exFsA : FS :=
  fun p => if p = "/src/a_20240101_101010.jpg" then .present 3 else .absent

/-- A single readable source file with no usable timestamp source. -/
def exFsNd : FS :=
  fun p => if p = "/src/nodate.jpg" then .present 3 else .absent

/-- A readable source whose candidate destination exists but cannot be
read. -/
def exFs7 : FS := fun p =>
  if p = "/src/a_20240101_101010.jpg" then .present 7
  else if p = "/dst/2024/a_20240101_101010.jpg" then .unreadable
  else .absent

/-- A destination holding a different-content file at the candidate name. -/
def exFs6 : FS := fun p =>
  if p = "/dst/2024/a.jpg" then .present 1
  else if p = "/s/a.jpg" then .present 2
  else .absent

/-- Two byte-identical sources under different roots, empty destination. -/
def exFs5 : FS := fun p =>
  if p = "/s1/a_20240101_101010.jpg" then .present 3
  else if p = "/s2/a_20240101_101010.jpg" then .present 3
  else .absent

/-! # Theorems -/

/-! ## Helper lemmas about the resolver -/

/-- When the EXIF data yields no datetime, the photo resolver reduces to
the reconciliation of the filename and modification-time candidates. -/
theorem gp_no_exif (eo : Option ExifData) (fnT modT : Option String)
    (h : eo.bind extract_exif_datetime = none) :
    get_photo_modification_time eo fnT modT = get_earliest_time none fnT modT := by
  cases eo with
  | none => rfl
  | some e =>
    simp only [Option.bind] at h
    simp [get_photo_modification_time, h]

/-- Reconciliation with a midnight filename candidate and an available
modification time keeps only the modification time. -/
theorem get_earliest_midnight (ft mt : String) (dtm : DT)
    (hmid : truthyMidnight (some ft) = true)
    (hpm : parseISO mt = some dtm) :
    get_earliest_time none (some ft) (some mt) = some (isoOfDT dtm) := by
  simp [get_earliest_time, hmid, hpm]

/-- Reconciliation with a lone filename candidate returns it
(re-rendered). -/
theorem get_earliest_lone (ft : String) (dtf : DT)
    (hpf : parseISO ft = some dtf) :
    get_earliest_time none (some ft) none = some (isoOfDT dtf) := by
  by_cases hmid : truthyMidnight (some ft) = true <;>
    simp [get_earliest_time, hmid, hpf]

/-- Reconciliation of a non-midnight filename candidate with a
modification time takes the earlier of the two (the filename value on
ties, being first in the candidate list). -/
theorem get_earliest_both (ft mt : String) (dtf dtm : DT)
    (hmid : truthyMidnight (some ft) = false)
    (hpf : parseISO ft = some dtf)
    (hpm : parseISO mt = some dtm) :
    get_earliest_time none (some ft) (some mt)
      = some (if dtm.key < dtf.key then isoOfDT dtm else isoOfDT dtf) := by
  simp [get_earliest_time, hmid, hpf, hpm, apply_ite isoOfDT]

/-! ## Claim C1 -/

/-- Claim C1: for every media file whose EXIF mapping yields a datetime
through the ordered field chase of `_extract_exif_datetime` (fields
`EXIF DateTimeOriginal`, `EXIF DateTimeDigitized`, `Image DateTime` in
that fixed order, the first non-empty convertible value winning),
`_get_photo_modification_time` returns exactly that value, for every
filename-derived candidate and every filesystem modification time. -/
theorem claim1_exif_authoritative (e : ExifData) (t : String)
    (h : extract_exif_datetime e = some t) :
    ∀ fnT modT : Option String,
      get_photo_modification_time (some e) fnT modT = some t := by
  intro fnT modT
  simp [get_photo_modification_time, h]

/-- Witness for C1 at a concrete EXIF mapping, with conflicting filename
and modification-time candidates. -/
theorem claim1_exif_authoritative_witness :
    get_photo_modification_time
      (some (fun f =>
        if f = "EXIF DateTimeOriginal" then some "2024:12:30 18:30:45" else none))
      (some "2009-01-01T00:00:00") (some "2010-05-06T07:08:09")
    = some "2024-12-30T18:30:45" :=
  claim1_exif_authoritative _ _ (by decide) _ _

/-! ## Claim C3 -/

/-- Claim C3: with no embedded-metadata timestamp, a filename candidate
carrying the synthesized midnight time is dropped in favour of the
modification-time candidate whenever one exists — even when the
modification time is later — and is returned only when it is the only
candidate. -/
theorem claim3_midnight_prefers_modtime (eo : Option ExifData)
    (ft mt : String) (dtf dtm : DT)
    (hno : eo.bind extract_exif_datetime = none)
    (hmid : truthyMidnight (some ft) = true)
    (hpf : parseISO ft = some dtf) (hrf : isoOfDT dtf = ft)
    (hpm : parseISO mt = some dtm) (hrm : isoOfDT dtm = mt) :
    get_photo_modification_time eo (some ft) (some mt) = some mt
      ∧ get_photo_modification_time eo (some ft) none = some ft := by
  constructor
  · rw [gp_no_exif eo _ _ hno, get_earliest_midnight ft mt dtm hmid hpm, hrm]
  · rw [gp_no_exif eo _ _ hno, get_earliest_lone ft dtf hpf, hrf]

/-- Witness for C3: the midnight value `2024-12-30T00:00:00` loses to the
strictly later modification time `2024-12-31T10:00:00`, and wins only
when alone. -/
theorem claim3_midnight_prefers_modtime_witness :
    get_photo_modification_time none (some "2024-12-30T00:00:00")
        (some "2024-12-31T10:00:00") = some "2024-12-31T10:00:00"
      ∧ get_photo_modification_time none (some "2024-12-30T00:00:00") none
        = some "2024-12-30T00:00:00" :=
  claim3_midnight_prefers_modtime none _ _ ⟨2024, 12, 30, 0, 0, 0⟩
    ⟨2024, 12, 31, 10, 0, 0⟩ rfl (by decide) (by decide) (by decide)
    (by decide) (by decide)

/-! ## Claim C4 -/

/-- Counterexample to claim C4: the filename `20241230_183045_x.jpg`
matches the full date+time pattern (encoding `2024-12-30T18:30:45`), yet
with no EXIF timestamp and the earlier modification time
`2020-01-01T10:00:00` the resolver returns the modification time, not the
filename-encoded value. -/
theorem claim4_counterexample :
    get_date_from_filename "20241230_183045_x.jpg" = some "2024-12-30T18:30:45"
      ∧ get_photo_modification_time none
          (get_date_from_filename "20241230_183045_x.jpg")
          (some "2020-01-01T10:00:00") = some "2020-01-01T10:00:00"
      ∧ get_photo_modification_time none
          (get_date_from_filename "20241230_183045_x.jpg")
          (some "2020-01-01T10:00:00") ≠ some "2024-12-30T18:30:45" :=
  ⟨by decide, by decide, by decide⟩

/-- Claim C4 as amended: for a file whose filename yields a full
(non-midnight) date+time value and that has no embedded-metadata
timestamp, the resolver returns the earlier of the filename-encoded value
and the filesystem modification time (the filename value on ties and when
no modification time is available) — not the filename value
unconditionally. -/
theorem claim4_earliest_of_two (eo : Option ExifData) (name ft mt : String)
    (dtf dtm : DT)
    (hno : eo.bind extract_exif_datetime = none)
    (hf : get_date_from_filename name = some ft)
    (hmid : truthyMidnight (some ft) = false)
    (hpf : parseISO ft = some dtf) (hrf : isoOfDT dtf = ft)
    (hpm : parseISO mt = some dtm) (hrm : isoOfDT dtm = mt) :
    get_photo_modification_time eo (get_date_from_filename name) (some mt)
        = some (if dtm.key < dtf.key then mt else ft)
      ∧ get_photo_modification_time eo (get_date_from_filename name) none
        = some ft := by
  rw [hf]
  constructor
  · rw [gp_no_exif eo _ _ hno, get_earliest_both ft mt dtf dtm hmid hpf hpm,
      hrm, hrf]
  · rw [gp_no_exif eo _ _ hno, get_earliest_lone ft dtf hpf, hrf]

/-- Witness for the amended C4 at the spec's example filename, once with a
later and once with no modification time. -/
theorem claim4_earliest_of_two_witness :
    get_photo_modification_time none
        (get_date_from_filename "20241230_183045_x.jpg")
        (some "2025-01-01T00:00:01") = some "2024-12-30T18:30:45"
      ∧ get_photo_modification_time none
        (get_date_from_filename "20241230_183045_x.jpg") none
        = some "2024-12-30T18:30:45" := by
  have h := claim4_earliest_of_two none "20241230_183045_x.jpg"
    "2024-12-30T18:30:45" "2025-01-01T00:00:01"
    ⟨2024, 12, 30, 18, 30, 45⟩ ⟨2025, 1, 1, 0, 0, 1⟩ rfl (by decide) (by decide)
    (by decide) (by decide) (by decide) (by decide)
  exact ⟨by rw [h.1]; decide, h.2⟩

/-! ## Claim C10 -/

/-- Claim C10: on the video path the filename-derived timestamp wins
unconditionally — whenever `get_date_from_filename` matches (including a
synthesized-midnight date-only match), `_get_video_creation_time` returns
that value for every filesystem modification time, applying neither the
earliest-of-two rule nor the midnight-preference rule. -/
theorem claim10_video_filename_priority (name t : String)
    (h : get_date_from_filename name = some t) :
    ∀ modT : Option String,
      get_video_creation_time (get_date_from_filename name) modT = some t := by
  intro modT
  rw [h]
  rfl

/-- Witness for C10: a date-only video filename keeps its midnight value
even against a far earlier available modification time. -/
theorem claim10_video_filename_priority_witness :
    get_video_creation_time (get_date_from_filename "20241230.mp4")
      (some "2009-01-01T01:02:03") = some "2024-12-30T00:00:00" :=
  claim10_video_filename_priority _ _ (by decide) _

/-! ## Claim C9 -/

/-- Counterexample to claim C9: `build_destination_path` is not total over
the claimed token set — a directory template consisting of the `hour`
token raises `KeyError` even for a perfectly valid timestamp (and an
unparseable timestamp string raises `ValueError`). -/
theorem claim9_counterexample :
    build_destination_path "2024-12-30T18:30:45" "a.jpg"
        [TemplateItem.hour] [TemplateItem.originalfile] = .error .keyError
      ∧ build_destination_path "garbage" "a.jpg" [] [] = .error .valueError :=
  ⟨rfl, rfl⟩

/-- `formatDirTemplate` agrees with the total renderer on templates whose
tokens are all date tokens or literals. -/
theorem formatDirTemplate_ok (dt : DT) :
    ∀ tpl : Template, tpl.all dirTokenOnly = true →
      formatDirTemplate dt tpl = .ok (renderDirTemplate dt tpl) := by
  intro tpl
  induction tpl with
  | nil => intro _; rfl
  | cons item rest ih =>
    intro h
    rw [List.all_cons, Bool.and_eq_true] at h
    cases item <;> simp_all [formatDirTemplate, renderDirTemplate, dirTokenOnly]

/-- Claim C9 as amended: `build_destination_path` is a pure function that
returns the substituted `(relative_dir, filename)` pair — numeric tokens
rendered `zfill(2)`-padded and the year unpadded — for every timestamp
string accepted by ISO parsing and every pair of templates whose
directory part uses only the `year`/`month`/`day` tokens and literals; a
directory template using any other token raises `KeyError`, and an
unparseable timestamp raises `ValueError`. -/
theorem claim9_build_total_on_date_templates (ts fname : String) (dt : DT)
    (pathT nameT : Template)
    (hts : parseISO ts = some dt)
    (hdir : pathT.all dirTokenOnly = true) :
    build_destination_path ts fname pathT nameT
      = .ok (renderDirTemplate dt pathT,
          formatNameTemplate dt (splitext fname).1 (splitext fname).2 nameT) := by
  simp [build_destination_path, hts, formatDirTemplate_ok dt pathT hdir]

/-- Witness for the amended C9 at concrete templates exercising the
padding of every numeric token. -/
theorem claim9_build_total_on_date_templates_witness :
    build_destination_path "2024-01-05T03:04:05" "img.JPG"
        [TemplateItem.year, TemplateItem.lit "/", TemplateItem.month,
          TemplateItem.lit "/", TemplateItem.day]
        [TemplateItem.originalfile, TemplateItem.lit "_", TemplateItem.hour,
          TemplateItem.minute, TemplateItem.second, TemplateItem.lit ".",
          TemplateItem.extension]
      = .ok ("2024/01/05", "img_030405.JPG") := by
  have h := claim9_build_total_on_date_templates "2024-01-05T03:04:05" "img.JPG"
    ⟨2024, 1, 5, 3, 4, 5⟩
    [TemplateItem.year, TemplateItem.lit "/", TemplateItem.month,
      TemplateItem.lit "/", TemplateItem.day]
    [TemplateItem.originalfile, TemplateItem.lit "_", TemplateItem.hour,
      TemplateItem.minute, TemplateItem.second, TemplateItem.lit ".",
      TemplateItem.extension]
    (by decide) (by decide)
  rw [h]
  rfl

/-! ## Filesystem helper lemmas -/

/-- A path does not exist exactly when its state is `absent`. -/
theorem pathExists_false_iff (fs : FS) (p : String) :
    pathExists fs p = false ↔ fs p = .absent := by
  unfold pathExists
  split <;> simp_all

/-! ## Claim C5 -/

/-- A file whose candidate destination already holds its own content is
skipped with no state change. -/
theorem single_photo_skip_of_same (cfg : Config) (o : Oracles)
    (u : Nat → String) (fuel : Nat) (fs : FS) (root f ts : String)
    (pf : String × String) (d : Nat)
    (hts : get_photo_modification_time (o.exif (joinPath root f))
        (get_date_from_filename f) (o.mtime (joinPath root f)) = some ts)
    (hb : build_destination_path ts f cfg.pathFormat cfg.nameFormat = .ok pf)
    (hdest : fs (joinPath (joinPath cfg.destDir pf.1) pf.2) = .present d)
    (hsrc : fs (joinPath root f) = .present d) :
    process_single_photo cfg o u fuel fs root f = (.skipped, fs, none) := by
  simp [process_single_photo, photoDecision, hts, hb,
    is_file_already_processed_by_path, pathExists, is_same_file, get_file_md5,
    hdest, hsrc]

/-- Claim C5: a file already present at the exact candidate destination
path with an equal content digest yields the `Skip` decision — no copy,
no new record, no filesystem change — and consequently two byte-identical
sources mapping to the same destination name produce exactly one
destination file, the second being a skip. -/
theorem claim5_duplicate_skip :
    (∀ (cfg : Config) (o : Oracles) (u : Nat → String) (fuel : Nat) (fs : FS)
        (root f ts : String) (pf : String × String) (d : Nat),
      get_photo_modification_time (o.exif (joinPath root f))
          (get_date_from_filename f) (o.mtime (joinPath root f)) = some ts →
      build_destination_path ts f cfg.pathFormat cfg.nameFormat = .ok pf →
      fs (joinPath (joinPath cfg.destDir pf.1) pf.2) = .present d →
      fs (joinPath root f) = .present d →
      process_single_photo cfg o u fuel fs root f = (.skipped, fs, none))
    ∧ (∀ (cfg : Config) (o : Oracles) (u : Nat → String) (fuel : Nat) (fs : FS)
        (root1 f1 root2 f2 ts1 ts2 : String) (pf : String × String) (d : Nat),
      get_photo_modification_time (o.exif (joinPath root1 f1))
          (get_date_from_filename f1) (o.mtime (joinPath root1 f1)) = some ts1 →
      build_destination_path ts1 f1 cfg.pathFormat cfg.nameFormat = .ok pf →
      get_photo_modification_time (o.exif (joinPath root2 f2))
          (get_date_from_filename f2) (o.mtime (joinPath root2 f2)) = some ts2 →
      build_destination_path ts2 f2 cfg.pathFormat cfg.nameFormat = .ok pf →
      fs (joinPath (joinPath cfg.destDir pf.1) pf.2) = .absent →
      fs (joinPath root1 f1) = .present d →
      fs (joinPath root2 f2) = .present d →
      joinPath root2 f2 ≠ joinPath (joinPath cfg.destDir pf.1) pf.2 →
      process_single_photo cfg o u fuel fs root1 f1
          = (.copied,
            fs.update (joinPath (joinPath cfg.destDir pf.1) pf.2) (.present d),
            some (joinPath root1 f1, joinPath (joinPath cfg.destDir pf.1) pf.2))
        ∧ process_single_photo cfg o u fuel
            (fs.update (joinPath (joinPath cfg.destDir pf.1) pf.2) (.present d))
            root2 f2
          = (.skipped,
            fs.update (joinPath (joinPath cfg.destDir pf.1) pf.2) (.present d),
            none)) := by
  constructor
  · intro cfg o u fuel fs root f ts pf d hts hb hdest hsrc
    exact single_photo_skip_of_same cfg o u fuel fs root f ts pf d hts hb hdest hsrc
  · intro cfg o u fuel fs root1 f1 root2 f2 ts1 ts2 pf d hts1 hb1 hts2 hb2 habs
      hs1 hs2 hne
    constructor
    · simp [process_single_photo, photoDecision, hts1, hb1,
        is_file_already_processed_by_path, pathExists, habs,
        copy_and_record_file, get_file_md5, hs1]
    · refine single_photo_skip_of_same cfg o u fuel _ root2 f2 ts2 pf d hts2 hb2
        ?_ ?_
      · simp [FS.update]
      · simp [FS.update, hne, hs2]

/-- Witness for C5: two identical sources `/s1/...` and `/s2/...` both map
to `/dst/2024/a_20240101_101010.jpg`; the first is copied there, the
second is skipped leaving the state unchanged. -/
theorem claim5_duplicate_skip_witness :
    process_single_photo exCfgP exNoOracles (fun _ => "u") 5 exFs5
        "/s1" "a_20240101_101010.jpg"
      = (.copied,
        exFs5.update "/dst/2024/a_20240101_101010.jpg" (.present 3),
        some ("/s1/a_20240101_101010.jpg", "/dst/2024/a_20240101_101010.jpg"))
    ∧ process_single_photo exCfgP exNoOracles (fun _ => "u") 5
        (exFs5.update "/dst/2024/a_20240101_101010.jpg" (.present 3))
        "/s2" "a_20240101_101010.jpg"
      = (.skipped,
        exFs5.update "/dst/2024/a_20240101_101010.jpg" (.present 3),
        none) :=
  claim5_duplicate_skip.2 exCfgP exNoOracles (fun _ => "u") 5 exFs5
    "/s1" "a_20240101_101010.jpg" "/s2" "a_20240101_101010.jpg"
    "2024-01-01T10:10:10" "2024-01-01T10:10:10"
    ("2024", "a_20240101_101010.jpg") 3
    rfl rfl rfl rfl rfl rfl rfl (by decide)

/-! ## Claim C6 -/

/-- Every path the collision loop returns is either absent or already
holds content identical to the source. -/
theorem genLoop_post (fs : FS) (src dir base ext : String) (u : Nat → String) :
    ∀ fuel c p, genLoop fs src dir base ext u c fuel = some p →
      fs p = .absent ∨ is_same_file fs src p = true := by
  intro fuel
  induction fuel with
  | zero => intro c p h; simp [genLoop] at h
  | succ n ih =>
    intro c p h
    simp only [genLoop] at h
    split at h
    · cases h
      exact Or.inl ((pathExists_false_iff fs _).mp (by assumption))
    · split at h
      · cases h
        exact Or.inr (by assumption)
      · split at h
        · split at h
          · cases h
            exact Or.inl ((pathExists_false_iff fs _).mp (by assumption))
          · exact ih _ _ h
        · exact ih _ _ h

/-- With a fresh random-token draw available at index `1000 + j`, the
collision loop finds a result within `j + 2` iterations past counter
999. -/
theorem genLoop_term (fs : FS) (src dir base ext : String) (u : Nat → String)
    (j : Nat)
    (hfresh : fs (joinPath dir (uuidName base (u (1000 + j)) ext)) = .absent) :
    ∀ fuel c, c ≤ 999 + j → 999 + j < c + fuel →
      ∃ p, genLoop fs src dir base ext u c fuel = some p := by
  intro fuel
  induction fuel with
  | zero => intro c hc hlt; omega
  | succ n ih =>
    intro c hc hlt
    by_cases h1 : pathExists fs (joinPath dir (suffixName base c ext)) = false
    · exact ⟨joinPath dir (suffixName base c ext), by simp [genLoop, h1]⟩
    · by_cases h2 :
          is_same_file fs src (joinPath dir (suffixName base c ext)) = true
      · exact ⟨joinPath dir (suffixName base c ext), by simp [genLoop, h1, h2]⟩
      · by_cases hc9 : 999 < c + 1
        · by_cases hcj : c = 999 + j
          · have hidx : c + 1 = 1000 + j := by omega
            have h3 : pathExists fs
                (joinPath dir (uuidName base (u (c + 1)) ext)) = false :=
              (pathExists_false_iff fs _).mpr (by rw [hidx]; exact hfresh)
            exact ⟨joinPath dir (uuidName base (u (c + 1)) ext),
              by simp [genLoop, h1, h2, hc9, h3]⟩
          · by_cases h3 :
                pathExists fs (joinPath dir (uuidName base (u (c + 1)) ext))
                  = false
            · exact ⟨joinPath dir (uuidName base (u (c + 1)) ext),
                by simp [genLoop, h1, h2, hc9, h3]⟩
            · obtain ⟨p, hp⟩ := ih (c + 1) (by omega) (by omega)
              exact ⟨p, by simp [genLoop, h1, h2, hc9, h3, hp]⟩
        · obtain ⟨p, hp⟩ := ih (c + 1) (by omega) (by omega)
          exact ⟨p, by simp [genLoop, h1, h2, hc9, hp]⟩

/-- Claim C6: under a non-overwrite policy the suffixed-candidate search
terminates for every destination state in which some random-token
fallback draw is globally unique (i.e. names no existing file), and the
path it returns either does not exist yet or already holds content
identical to the source (and is then reused). -/
theorem claim6_collision_search_terminates (u : Nat → String) (fs : FS)
    (base_dir dest_path filename src : String) (j : Nat)
    (hfresh : fs (joinPath (joinPath base_dir dest_path)
        (uuidName (splitext filename).1 (u (1000 + j)) (splitext filename).2))
      = .absent) :
    ∃ p, generate_unique_filename_with_content_check (1001 + j) u fs
          base_dir dest_path filename src = some p
      ∧ (fs p = .absent ∨ is_same_file fs src p = true) := by
  by_cases h1 :
      pathExists fs (joinPath (joinPath base_dir dest_path) filename) = false
  · exact ⟨joinPath (joinPath base_dir dest_path) filename,
      by simp [generate_unique_filename_with_content_check, h1],
      Or.inl ((pathExists_false_iff fs _).mp h1)⟩
  · by_cases h2 : is_same_file fs src
        (joinPath (joinPath base_dir dest_path) filename) = true
    · exact ⟨joinPath (joinPath base_dir dest_path) filename,
        by simp [generate_unique_filename_with_content_check, h1, h2],
        Or.inr h2⟩
    · obtain ⟨p, hp⟩ := genLoop_term fs src (joinPath base_dir dest_path)
        (splitext filename).1 (splitext filename).2 u j hfresh (1001 + j) 1
        (by omega) (by omega)
      exact ⟨p,
        by simp [generate_unique_filename_with_content_check, h1, h2, hp],
        genLoop_post fs src _ _ _ u _ _ _ hp⟩

/-- Witness for C6: with the original candidate occupied by different
content and `name_001` free, the search returns `name_001`, which does
not exist. -/
theorem claim6_collision_search_terminates_witness :
    ∃ p, generate_unique_filename_with_content_check 1001 (fun _ => "deadbeef")
          exFs6 "/dst" "2024" "a.jpg" "/s/a.jpg" = some p
      ∧ (exFs6 p = .absent ∨ is_same_file exFs6 "/s/a.jpg" p = true) :=
  claim6_collision_search_terminates (fun _ => "deadbeef") exFs6
    "/dst" "2024" "a.jpg" "/s/a.jpg" 0 (by decide)

/-! ## Claim C7 -/

/-- Counterexample to claim C7: at the candidate destination an existing
file whose digest cannot be read (`get_file_md5` returns `None`) does not
produce a placement error — the file is treated as different content and
copied under a suffixed name. -/
theorem claim7_counterexample :
    get_file_md5 exFs7 "/dst/2024/a_20240101_101010.jpg" = none
      ∧ is_file_already_processed_by_path exFs7
          "/dst/2024/a_20240101_101010.jpg" = true
      ∧ (process_single_photo exCfgP exNoOracles (fun _ => "u") 5 exFs7 "/src"
          "a_20240101_101010.jpg").1 = .copied :=
  ⟨rfl, rfl, rfl⟩

/-- Claim C7 as amended: a filesystem read failure during content
comparison is swallowed, not propagated — `get_file_md5` catches the
`IOError` and returns no digest, and `is_same_file` then answers `False`
("different content") whenever either digest is unavailable, sending the
file down the rename/copy path instead of signalling a placement
failure. -/
theorem claim7_read_failure_means_different (fs : FS) (a b : String)
    (h : get_file_md5 fs a = none ∨ get_file_md5 fs b = none) :
    is_same_file fs a b = false := by
  unfold is_same_file
  rcases h with h | h
  · rw [h]
  · rw [h]
    cases get_file_md5 fs a <;> rfl

/-- Witness for the amended C7 at the unreadable-destination state. -/
theorem claim7_read_failure_means_different_witness :
    is_same_file exFs7 "/src/a_20240101_101010.jpg"
      "/dst/2024/a_20240101_101010.jpg" = false :=
  claim7_read_failure_means_different exFs7 _ _ (Or.inr (by decide))

/-! ## Claim C8 -/

/-- Claim C8 fails on the video pass: the filename `20240231.mp4` passes
the regex date check but `2024-02-31` is calendar-invalid, so
`build_destination_path` raises `ValueError`, which neither
`_process_single_video` nor the `process_videos` loop catches (both catch
only `OSError`/`IOError`/`sqlite3.Error`), aborting the whole walk before
the next file; the photo pass, whose loop catches every exception,
converts the analogous failure into one error count (leaving the file
counter untouched on that path, since `file_count += 1` sits inside the
`try`) and continues to copy the following file. -/
theorem claim8_video_pass_aborts :
    process_videos exCfgV exNoOracles 5
        [("/src", "20240231.mp4"), ("/src", "good_20240101_101010.mp4")]
        exFsV []
      = .aborted .valueError
    ∧ (∃ fs1 db1, process_photos exCfgP exOracleBad (fun _ => "u") 5
        [("/src", "bad.jpg"), ("/src", "good_20240101_101010.jpg")] exFsP []
      = .done fs1 db1 ⟨1, 1, 0, 1⟩) :=
  ⟨rfl, ⟨_, _, rfl⟩⟩

/-! ## Claim C2: string-prefix and growth infrastructure -/

/-- Appending strings appends their character lists. -/
theorem data_append (a b : String) : (a ++ b).data = a.data ++ b.data := by
  cases a; cases b; rfl

/-- A list is a prefix of itself followed by anything. -/
theorem isPrefixOf_append_self : ∀ l t : List Char,
    List.isPrefixOf l (l ++ t) = true := by
  intro l t
  induction l with
  | nil => simp
  | cons c cs ih => simp [List.cons_append, List.isPrefixOf_cons₂, ih]

/-- A string is a prefix of itself followed by anything. -/
theorem strPrefix_append (a b : String) : strPrefix a (a ++ b) = true := by
  unfold strPrefix
  rw [data_append]
  exact isPrefixOf_append_self _ _

/-- String append is associative. -/
theorem str_append_assoc (a b c : String) : a ++ b ++ c = a ++ (b ++ c) := by
  cases a; cases b; cases c
  show String.mk _ = String.mk _
  rw [List.append_assoc]

/-- Every destination path the photo pass builds lies under
`destDir ++ "/"`. -/
theorem dest_prefix_joinPath (d x y : String) :
    strPrefix (d ++ "/") (joinPath (joinPath d x) y) = true := by
  have h : joinPath (joinPath d x) y = (d ++ "/") ++ (x ++ ("/" ++ y)) := by
    unfold joinPath
    rw [str_append_assoc (d ++ "/" ++ x), str_append_assoc (d ++ "/"),
      str_append_assoc d]
  rw [h]
  exact strPrefix_append _ _

/-- Growth is reflexive. -/
theorem Grows.refl' (dd : String) (fs : FS) : Grows dd fs fs :=
  ⟨fun _ _ => rfl, fun _ _ => rfl⟩

/-- Growth is transitive. -/
theorem Grows.trans' {dd : String} {fs1 fs2 fs3 : FS}
    (h1 : Grows dd fs1 fs2) (h2 : Grows dd fs2 fs3) : Grows dd fs1 fs3 := by
  constructor
  · intro p hp
    have e1 := h1.1 p hp
    have e2 := h2.1 p (by rw [e1]; exact hp)
    rw [e2, e1]
  · intro p hp
    rw [h2.2 p hp, h1.2 p hp]

/-- Writing a fresh file under the destination directory is growth. -/
theorem Grows.update_absent {dd : String} {fs : FS} {P : String}
    (habs : fs P = .absent) (hpre : strPrefix (dd ++ "/") P = true)
    (st : FileState) : Grows dd fs (fs.update P st) := by
  constructor
  · intro q hq
    unfold FS.update
    rw [if_neg (by rintro rfl; exact hq habs)]
  · intro q hq
    unfold FS.update
    rw [if_neg (by rintro rfl; rw [hpre] at hq; cases hq)]

/-- Existence depends only on the state at the path. -/
theorem pathExists_congr {fs fs' : FS} {p : String} (h : fs' p = fs p) :
    pathExists fs' p = pathExists fs p := by
  unfold pathExists
  rw [h]

/-- Content comparison depends only on the states at the two paths. -/
theorem is_same_congr {fs fs' : FS} {a b : String}
    (ha : fs' a = fs a) (hb : fs' b = fs b) :
    is_same_file fs' a b = is_same_file fs a b := by
  unfold is_same_file get_file_md5
  rw [ha, hb]

/-! ## Claim C2: stability of the collision search under growth -/

/-- Every path the collision loop returns is a name inside its search
directory. -/
theorem genLoop_shape (fs : FS) (src dir base ext : String) (u : Nat → String) :
    ∀ fuel c p, genLoop fs src dir base ext u c fuel = some p →
      ∃ nm, p = joinPath dir nm := by
  intro fuel
  induction fuel with
  | zero => intro c p h; simp [genLoop] at h
  | succ n ih =>
    intro c p h
    simp only [genLoop] at h
    split at h
    · cases h; exact ⟨_, rfl⟩
    · split at h
      · cases h; exact ⟨_, rfl⟩
      · split at h
        · split at h
          · cases h; exact ⟨_, rfl⟩
          · exact ih _ _ h
        · exact ih _ _ h

/-- Every path the collision search returns is a name inside the
destination directory it searches. -/
theorem gen_shape (fuel : Nat) (u : Nat → String) (fs : FS)
    (bd dp fn sp p : String)
    (h : generate_unique_filename_with_content_check fuel u fs bd dp fn sp
      = some p) :
    ∃ nm, p = joinPath (joinPath bd dp) nm := by
  simp only [generate_unique_filename_with_content_check] at h
  split at h
  · cases h; exact ⟨_, rfl⟩
  · split at h
    · cases h; exact ⟨_, rfl⟩
    · exact genLoop_shape fs sp _ _ _ u _ _ _ h

/-- Postcondition of the whole collision search: the returned path is
absent or content-identical to the source. -/
theorem gen_post (fuel : Nat) (u : Nat → String) (fs : FS)
    (bd dp fn sp p : String)
    (h : generate_unique_filename_with_content_check fuel u fs bd dp fn sp
      = some p) :
    fs p = .absent ∨ is_same_file fs sp p = true := by
  simp only [generate_unique_filename_with_content_check] at h
  split at h
  · cases h
    exact Or.inl ((pathExists_false_iff fs _).mp (by assumption))
  · split at h
    · cases h
      exact Or.inr (by assumption)
    · exact genLoop_post fs sp _ _ _ u _ _ _ h

/-- The collision loop's answer is stable under destination growth when
that answer is an existing (reused) file: all earlier candidates it
stepped over existed and keep their state, so the loop retraces the same
steps. -/
theorem genLoop_stable {dd : String} {fs fs' : FS} (hg : Grows dd fs fs')
    {src : String} (hsp : fs' src = fs src) (dir base ext : String)
    (u : Nat → String) :
    ∀ fuel c p, genLoop fs src dir base ext u c fuel = some p →
      fs p ≠ .absent →
      genLoop fs' src dir base ext u c fuel = some p := by
  intro fuel
  induction fuel with
  | zero => intro c p h _; simp [genLoop] at h
  | succ n ih =>
    intro c p h hne
    simp only [genLoop] at h ⊢
    by_cases h1 : pathExists fs (joinPath dir (suffixName base c ext)) = false
    · rw [if_pos h1] at h
      cases h
      exact absurd ((pathExists_false_iff fs _).mp h1) hne
    · have hful : fs (joinPath dir (suffixName base c ext)) ≠ .absent :=
        fun hab => h1 ((pathExists_false_iff fs _).mpr hab)
      have hpres : fs' (joinPath dir (suffixName base c ext))
          = fs (joinPath dir (suffixName base c ext)) := hg.1 _ hful
      rw [if_neg h1] at h
      rw [if_neg (by rw [pathExists_congr hpres]; exact h1)]
      rw [is_same_congr hsp hpres]
      by_cases h2 :
          is_same_file fs src (joinPath dir (suffixName base c ext)) = true
      · rw [if_pos h2] at h
        rw [if_pos h2]
        exact h
      · rw [if_neg h2] at h
        rw [if_neg h2]
        by_cases h9 : 999 < c + 1
        · rw [if_pos h9] at h
          rw [if_pos h9]
          by_cases h3 : pathExists fs
              (joinPath dir (uuidName base (u (c + 1)) ext)) = false
          · rw [if_pos h3] at h
            cases h
            exact absurd ((pathExists_false_iff fs _).mp h3) hne
          · have huex : fs (joinPath dir (uuidName base (u (c + 1)) ext))
                ≠ .absent :=
              fun hab => h3 ((pathExists_false_iff fs _).mpr hab)
            have hupres : fs' (joinPath dir (uuidName base (u (c + 1)) ext))
                = fs (joinPath dir (uuidName base (u (c + 1)) ext)) :=
              hg.1 _ huex
            rw [if_neg h3] at h
            rw [if_neg (by rw [pathExists_congr hupres]; exact h3)]
            exact ih _ _ h hne
        · rw [if_neg h9] at h
          rw [if_neg h9]
          exact ih _ _ h hne

/-- The collision search's answer is stable under destination growth when
that answer is an existing (reused) file. -/
theorem gen_stable {dd : String} {fs fs' : FS} (hg : Grows dd fs fs')
    {src : String} (hsp : fs' src = fs src) (bd dp fn : String)
    (u : Nat → String) (fuel : Nat) (p : String)
    (h : generate_unique_filename_with_content_check fuel u fs bd dp fn src
      = some p)
    (hne : fs p ≠ .absent) :
    generate_unique_filename_with_content_check fuel u fs' bd dp fn src
      = some p := by
  simp only [generate_unique_filename_with_content_check] at h ⊢
  by_cases h1 : pathExists fs (joinPath (joinPath bd dp) fn) = false
  · rw [if_pos h1] at h
    cases h
    exact absurd ((pathExists_false_iff fs _).mp h1) hne
  · have hex : fs (joinPath (joinPath bd dp) fn) ≠ .absent :=
      fun hab => h1 ((pathExists_false_iff fs _).mpr hab)
    have hpres : fs' (joinPath (joinPath bd dp) fn)
        = fs (joinPath (joinPath bd dp) fn) := hg.1 _ hex
    rw [if_neg h1] at h
    rw [if_neg (by rw [pathExists_congr hpres]; exact h1)]
    rw [is_same_congr hsp hpres]
    by_cases h2 : is_same_file fs src (joinPath (joinPath bd dp) fn) = true
    · rw [if_pos h2] at h
      rw [if_pos h2]
      exact h
    · rw [if_neg h2] at h
      rw [if_neg h2]
      exact genLoop_stable hg hsp _ _ _ u _ _ _ h hne

/-! ## Claim C2: characterizations of one photo step -/

/-- A non-copy outcome leaves the filesystem unchanged and produces no
record. -/
theorem single_no_change (cfg : Config) (o : Oracles) (u : Nat → String)
    (fuel : Nat) (fs : FS) (root f : String) (out : POut) (fs2 : FS)
    (rec : Option Rec)
    (h : process_single_photo cfg o u fuel fs root f = (out, fs2, rec))
    (hnc : out ≠ .copied) : fs2 = fs ∧ rec = none := by
  unfold process_single_photo at h
  split at h
  · cases h; exact ⟨rfl, rfl⟩
  · cases h; exact ⟨rfl, rfl⟩
  · cases h; exact ⟨rfl, rfl⟩
  · cases h; exact ⟨rfl, rfl⟩
  · unfold copy_and_record_file at h
    split at h
    · cases h; exact ⟨rfl, rfl⟩
    · cases h; exact absurd rfl hnc

/-- A skipped outcome means the decision was a skip. -/
theorem single_skipped_dec (cfg : Config) (o : Oracles) (u : Nat → String)
    (fuel : Nat) (fs : FS) (root f : String) (fs2 : FS) (rec : Option Rec)
    (h : process_single_photo cfg o u fuel fs root f = (.skipped, fs2, rec)) :
    photoDecision cfg o u fuel fs root f = .dskip := by
  unfold process_single_photo at h
  split at h
  · assumption
  · cases h
  · cases h
  · cases h
  · unfold copy_and_record_file at h
    split at h
    · cases h
    · cases h

/-- A raised outcome means the decision was a raise of the same kind. -/
theorem single_raised_dec (cfg : Config) (o : Oracles) (u : Nat → String)
    (fuel : Nat) (fs : FS) (root f : String) (k : ExcKind) (fs2 : FS)
    (rec : Option Rec)
    (h : process_single_photo cfg o u fuel fs root f = (.raised k, fs2, rec)) :
    photoDecision cfg o u fuel fs root f = .draise k := by
  unfold process_single_photo at h
  split at h
  · cases h
  · cases h
  · cases h
    assumption
  · cases h
  · unfold copy_and_record_file at h
    split at h
    · cases h
    · cases h

/-- With a readable source, an error outcome means the decision was a
timestamp-resolution failure (the copy itself cannot fail). -/
theorem single_error_dec (cfg : Config) (o : Oracles) (u : Nat → String)
    (fuel : Nat) (fs : FS) (root f : String) (d : Nat) (fs2 : FS)
    (rec : Option Rec)
    (hread : fs (joinPath root f) = .present d)
    (h : process_single_photo cfg o u fuel fs root f = (.error, fs2, rec)) :
    photoDecision cfg o u fuel fs root f = .derror := by
  unfold process_single_photo at h
  split at h
  · cases h
  · assumption
  · cases h
  · cases h
  · unfold copy_and_record_file at h
    unfold get_file_md5 at h
    rw [hread] at h
    cases h

/-- Under a non-overwrite policy, a copy decision always targets a path
that does not exist yet and lies under the destination directory. -/
theorem photoDecision_dcopy_props (cfg : Config) (o : Oracles)
    (u : Nat → String) (fuel : Nat) (fs : FS) (root f P : String)
    (how : cfg.overwrite = false)
    (hdec : photoDecision cfg o u fuel fs root f = .dcopy P) :
    fs P = .absent ∧ strPrefix (cfg.destDir ++ "/") P = true := by
  simp only [photoDecision] at hdec
  cases hres : get_photo_modification_time (o.exif (joinPath root f))
      (get_date_from_filename f) (o.mtime (joinPath root f)) with
  | none => simp only [hres] at hdec; simp at hdec
  | some ts =>
    simp only [hres] at hdec
    cases hb : build_destination_path ts f cfg.pathFormat cfg.nameFormat with
    | error k => simp only [hb] at hdec; simp at hdec
    | ok pf =>
      simp only [hb, is_file_already_processed_by_path] at hdec
      by_cases hex : pathExists fs (joinPath (joinPath cfg.destDir pf.1) pf.2)
          = true
      · rw [if_pos hex] at hdec
        by_cases hsm : is_same_file fs (joinPath root f)
            (joinPath (joinPath cfg.destDir pf.1) pf.2) = true
        · rw [if_pos hsm] at hdec
          simp at hdec
        · rw [if_neg hsm, how, if_pos rfl] at hdec
          cases hgen : generate_unique_filename_with_content_check fuel u fs
              cfg.destDir pf.1 pf.2 (joinPath root f) with
          | none => simp only [hgen] at hdec; simp at hdec
          | some F2 =>
            simp only [hgen] at hdec
            have hshape := gen_shape _ u fs _ _ _ _ _ hgen
            by_cases hex2 : pathExists fs F2 = true
            · rw [if_pos hex2] at hdec
              by_cases hsm2 : is_same_file fs (joinPath root f) F2 = true
              · rw [if_pos hsm2] at hdec; simp at hdec
              · rw [if_neg hsm2] at hdec
                cases hdec
                rcases gen_post _ u fs _ _ _ _ _ hgen with hab | hsm2'
                · rw [(pathExists_false_iff fs _).mpr hab] at hex2
                  cases hex2
                · exact absurd hsm2' hsm2
            · rw [if_neg hex2] at hdec
              cases hdec
              obtain ⟨nm, hnm⟩ := hshape
              refine ⟨(pathExists_false_iff fs _).mp ?_, by
                rw [hnm]; exact dest_prefix_joinPath _ _ _⟩
              cases hpe : pathExists fs P
              · rfl
              · exact absurd hpe hex2
      · rw [if_neg hex] at hdec
        cases hdec
        refine ⟨(pathExists_false_iff fs _).mp ?_, dest_prefix_joinPath _ _ _⟩
        cases hpe : pathExists fs (joinPath (joinPath cfg.destDir pf.1) pf.2)
        · rfl
        · exact absurd hpe hex

/-- With a non-overwrite policy, a copied outcome writes the source
content at a previously absent destination-directory path and records
exactly that path (so the source was readable). -/
theorem single_copied_props (cfg : Config) (o : Oracles) (u : Nat → String)
    (fuel : Nat) (fs : FS) (root f : String) (fs2 : FS) (rec : Option Rec)
    (how : cfg.overwrite = false)
    (h : process_single_photo cfg o u fuel fs root f = (.copied, fs2, rec)) :
    ∃ P d, fs P = .absent ∧ strPrefix (cfg.destDir ++ "/") P = true
      ∧ fs2 = fs.update P (.present d) ∧ rec = some (joinPath root f, P)
      ∧ fs (joinPath root f) = .present d := by
  unfold process_single_photo at h
  cases hdec : photoDecision cfg o u fuel fs root f with
  | dskip => rw [hdec] at h; cases h
  | derror => rw [hdec] at h; cases h
  | draise k => rw [hdec] at h; cases h
  | ddiverge => rw [hdec] at h; cases h
  | dcopy P =>
    rw [hdec] at h
    unfold copy_and_record_file at h
    cases hd : get_file_md5 fs (joinPath root f) with
    | none => rw [hd] at h; cases h
    | some d =>
      rw [hd] at h
      cases h
      have hsrc : fs (joinPath root f) = .present d := by
        unfold get_file_md5 at hd
        split at hd
        · cases hd; assumption
        · cases hd
      obtain ⟨habs, hpre⟩ := photoDecision_dcopy_props cfg o u fuel fs root f P
        how hdec
      exact ⟨P, d, habs, hpre, rfl, rfl, hsrc⟩

/-- A copy decision is not one of the non-copy outcomes. -/
theorem not_OSE_dcopy (P : String) : ¬ DecOSE (.dcopy P) := by
  rintro (h | h | ⟨k, h⟩) <;> simp at h

/-- A divergence is not one of the non-copy outcomes. -/
theorem not_OSE_ddiverge : ¬ DecOSE .ddiverge := by
  rintro (h | h | ⟨k, h⟩) <;> simp at h

/-- Stability of a non-copy decision under destination growth: when the
decision at `fs` is skip/error/raise, every path it consulted existed (or
the inputs are filesystem-independent), so the grown filesystem `fs'`
yields the same decision. -/
theorem photoDecision_stable (cfg : Config) (o : Oracles) (u : Nat → String)
    (fuel : Nat) {fs fs' : FS} (root f : String)
    (hg : Grows cfg.destDir fs fs')
    (hfp : strPrefix (cfg.destDir ++ "/") (joinPath root f) = false)
    (hd : DecOSE (photoDecision cfg o u fuel fs root f)) :
    photoDecision cfg o u fuel fs' root f
      = photoDecision cfg o u fuel fs root f := by
  have hfp' : fs' (joinPath root f) = fs (joinPath root f) := hg.2 _ hfp
  simp only [photoDecision] at hd ⊢
  cases hres : get_photo_modification_time (o.exif (joinPath root f))
      (get_date_from_filename f) (o.mtime (joinPath root f)) with
  | none => simp only [hres]
  | some ts =>
    simp only [hres] at hd ⊢
    cases hb : build_destination_path ts f cfg.pathFormat cfg.nameFormat with
    | error k => simp only [hb]
    | ok pf =>
      simp only [hb, is_file_already_processed_by_path] at hd ⊢
      by_cases hex : pathExists fs (joinPath (joinPath cfg.destDir pf.1) pf.2)
          = true
      · have hful : fs (joinPath (joinPath cfg.destDir pf.1) pf.2)
            ≠ .absent := by
          intro hab
          rw [(pathExists_false_iff _ _).mpr hab] at hex
          cases hex
        have hpres : fs' (joinPath (joinPath cfg.destDir pf.1) pf.2)
            = fs (joinPath (joinPath cfg.destDir pf.1) pf.2) := hg.1 _ hful
        rw [if_pos hex] at hd
        rw [pathExists_congr hpres, if_pos hex, if_pos hex,
          is_same_congr hfp' hpres]
        by_cases hsm : is_same_file fs (joinPath root f)
            (joinPath (joinPath cfg.destDir pf.1) pf.2) = true
        · rw [if_pos hsm, if_pos hsm]
        · rw [if_neg hsm] at hd
          rw [if_neg hsm, if_neg hsm]
          by_cases how : cfg.overwrite = false
          · rw [how] at hd ⊢
            rw [if_pos rfl] at hd
            rw [if_pos rfl, if_pos rfl]
            cases hgen : generate_unique_filename_with_content_check fuel u fs
                cfg.destDir pf.1 pf.2 (joinPath root f) with
            | none =>
              rw [hgen] at hd
              exact absurd hd not_OSE_ddiverge
            | some F2 =>
              simp only [hgen] at hd
              by_cases hex2 : pathExists fs F2 = true
              · have hne2 : fs F2 ≠ .absent := by
                  intro hab
                  rw [(pathExists_false_iff _ _).mpr hab] at hex2
                  cases hex2
                have hpres2 : fs' F2 = fs F2 := hg.1 _ hne2
                rw [if_pos hex2] at hd
                by_cases hsm2 : is_same_file fs (joinPath root f) F2 = true
                · have hgen' := gen_stable hg hfp' cfg.destDir pf.1 pf.2 u fuel
                    F2 hgen hne2
                  simp only [hgen, hgen', pathExists_congr hpres2,
                    is_same_congr hfp' hpres2]
                · rw [if_neg hsm2] at hd
                  exact absurd hd (not_OSE_dcopy F2)
              · rw [if_neg hex2] at hd
                exact absurd hd (not_OSE_dcopy F2)
          · rw [if_neg how] at hd
            exact absurd hd (not_OSE_dcopy _)
      · rw [if_neg hex] at hd
        exact absurd hd (not_OSE_dcopy _)

/-! ## Claim C2: loop lemmas -/

/-- The record list only grows across the photo loop. -/
theorem photoLoop_db_mono (cfg : Config) (o : Oracles) (u : Nat → String)
    (fuel : Nat) :
    ∀ (l : List (String × String)) (fs : FS) (db : DB) (proc : List String)
      (c : Counts) (fs' : FS) (db' : DB) (c' : Counts),
      photoLoop cfg o u fuel l fs db proc c = .done fs' db' c' →
      ∀ r ∈ db, r ∈ db' := by
  intro l
  induction l with
  | nil =>
    intro fs db proc c fs' db' c' h r hr
    simp only [photoLoop] at h
    cases h
    exact hr
  | cons rf rest ih =>
    intro fs db proc c fs' db' c' h r hr
    obtain ⟨root, f⟩ := rf
    simp only [photoLoop] at h
    by_cases hsupp : isSupported cfg.supportedTypes f = true
    · rw [if_pos hsupp] at h
      by_cases hmem : joinPath root f ∈ proc
      · rw [if_pos hmem] at h
        exact ih _ _ _ _ _ _ _ h r hr
      · rw [if_neg hmem] at h
        rcases hout : process_single_photo cfg o u fuel fs root f with
          ⟨out, fs2, rec⟩
        rw [hout] at h
        cases out with
        | skipped => exact ih _ _ _ _ _ _ _ h r hr
        | copied =>
          exact ih _ _ _ _ _ _ _ h r (List.mem_append_left _ hr)
        | error => exact ih _ _ _ _ _ _ _ h r hr
        | raised k => exact ih _ _ _ _ _ _ _ h r hr
        | diverged => cases h
    · rw [if_neg hsupp] at h
      exact ih _ _ _ _ _ _ _ h r hr

/-- Under a non-overwrite policy the photo loop only grows the
destination tree. -/
theorem photoLoop_grows (cfg : Config) (o : Oracles) (u : Nat → String)
    (fuel : Nat) (how : cfg.overwrite = false) :
    ∀ (l : List (String × String)) (fs : FS) (db : DB) (proc : List String)
      (c : Counts) (fs' : FS) (db' : DB) (c' : Counts),
      photoLoop cfg o u fuel l fs db proc c = .done fs' db' c' →
      Grows cfg.destDir fs fs' := by
  intro l
  induction l with
  | nil =>
    intro fs db proc c fs' db' c' h
    simp only [photoLoop] at h
    cases h
    exact Grows.refl' _ _
  | cons rf rest ih =>
    intro fs db proc c fs' db' c' h
    obtain ⟨root, f⟩ := rf
    simp only [photoLoop] at h
    by_cases hsupp : isSupported cfg.supportedTypes f = true
    · rw [if_pos hsupp] at h
      by_cases hmem : joinPath root f ∈ proc
      · rw [if_pos hmem] at h
        exact ih _ _ _ _ _ _ _ h
      · rw [if_neg hmem] at h
        rcases hout : process_single_photo cfg o u fuel fs root f with
          ⟨out, fs2, rec⟩
        rw [hout] at h
        cases out with
        | skipped =>
          obtain ⟨hfs, -⟩ := single_no_change cfg o u fuel fs root f _ _ _ hout
            (by simp)
          rw [hfs] at h
          exact ih _ _ _ _ _ _ _ h
        | copied =>
          obtain ⟨P, d, habs, hpre, hfs2, -, -⟩ := single_copied_props cfg o u
            fuel fs root f _ _ how hout
          have hstep : Grows cfg.destDir fs fs2 := by
            rw [hfs2]
            exact Grows.update_absent habs hpre _
          exact Grows.trans' hstep (ih _ _ _ _ _ _ _ h)
        | error =>
          obtain ⟨hfs, -⟩ := single_no_change cfg o u fuel fs root f _ _ _ hout
            (by simp)
          rw [hfs] at h
          exact ih _ _ _ _ _ _ _ h
        | raised k =>
          obtain ⟨hfs, -⟩ := single_no_change cfg o u fuel fs root f _ _ _ hout
            (by simp)
          rw [hfs] at h
          exact ih _ _ _ _ _ _ _ h
        | diverged => cases h
    · rw [if_neg hsupp] at h
      exact ih _ _ _ _ _ _ _ h

/-- Invariant established by a completed first pass: every supported file
of the walk is in the entry processed set, or has a record in the final
database, or its decision against the final filesystem is a non-copy
(skip/error/raise). -/
theorem photoLoop_run1_inv (cfg : Config) (o : Oracles) (u : Nat → String)
    (fuel : Nat) (how : cfg.overwrite = false) :
    ∀ (l : List (String × String)) (fs : FS) (db : DB) (proc : List String)
      (c : Counts) (fs' : FS) (db' : DB) (c' : Counts),
      photoLoop cfg o u fuel l fs db proc c = .done fs' db' c' →
      (∀ rf ∈ l, strPrefix (cfg.destDir ++ "/") (joinPath rf.1 rf.2) = false) →
      (∀ rf ∈ l, ∃ d, fs (joinPath rf.1 rf.2) = .present d) →
      ∀ rf ∈ l, isSupported cfg.supportedTypes rf.2 = true →
        (joinPath rf.1 rf.2 ∈ proc)
        ∨ (∃ dst, (joinPath rf.1 rf.2, dst) ∈ db')
        ∨ DecOSE (photoDecision cfg o u fuel fs' rf.1 rf.2) := by
  intro l
  induction l with
  | nil => intro fs db proc c fs' db' c' h hnd hread rf hrf; cases hrf
  | cons rf0 rest ih =>
    intro fs db proc c fs' db' c' h hnd hread rf hrf hsupp'
    obtain ⟨root, f⟩ := rf0
    simp only [photoLoop] at h
    by_cases hsupp : isSupported cfg.supportedTypes f = true
    · rw [if_pos hsupp] at h
      by_cases hmem : joinPath root f ∈ proc
      · rw [if_pos hmem] at h
        rcases List.mem_cons.mp hrf with hrf | hrf
        · cases hrf
          exact Or.inl hmem
        · exact ih _ _ _ _ _ _ _ h (fun x hx => hnd x (List.mem_cons_of_mem _ hx))
            (fun x hx => hread x (List.mem_cons_of_mem _ hx)) rf hrf hsupp'
      · rw [if_neg hmem] at h
        rcases hout : process_single_photo cfg o u fuel fs root f with
          ⟨out, fs2, rec⟩
        rw [hout] at h
        obtain ⟨dh, hreadh⟩ := hread (root, f) (List.mem_cons_self _ _)
        cases out with
        | skipped =>
          obtain ⟨hfs, -⟩ := single_no_change cfg o u fuel fs root f _ _ _ hout
            (by simp)
          rw [hfs] at h
          rcases List.mem_cons.mp hrf with hrf | hrf
          · cases hrf
            refine Or.inr (Or.inr ?_)
            have hdec := single_skipped_dec cfg o u fuel fs root f _ _ hout
            have hgrow := photoLoop_grows cfg o u fuel how _ _ _ _ _ _ _ _ h
            rw [photoDecision_stable cfg o u fuel root f hgrow
              (hnd (root, f) (List.mem_cons_self _ _)) (Or.inl hdec), hdec]
            exact Or.inl rfl
          · exact ih _ _ _ _ _ _ _ h
              (fun x hx => hnd x (List.mem_cons_of_mem _ hx))
              (fun x hx => hread x (List.mem_cons_of_mem _ hx)) rf hrf hsupp'
        | copied =>
          obtain ⟨P, d, habs, hpre, hfs2, hrec, -⟩ := single_copied_props cfg o
            u fuel fs root f _ _ how hout
          rcases List.mem_cons.mp hrf with hrf | hrf
          · cases hrf
            refine Or.inr (Or.inl ⟨P, ?_⟩)
            refine photoLoop_db_mono cfg o u fuel _ _ _ _ _ _ _ _ h _ ?_
            rw [hrec]
            exact List.mem_append_right _ (List.mem_singleton.mpr rfl)
          · have hreadr : ∀ x ∈ rest, ∃ dx, fs2 (joinPath x.1 x.2)
                = FileState.present dx := by
              intro x hx
              obtain ⟨dx, hdx⟩ := hread x (List.mem_cons_of_mem _ hx)
              refine ⟨dx, ?_⟩
              rw [hfs2]
              unfold FS.update
              rw [if_neg ?_]
              · exact hdx
              · intro heq
                have := hnd x (List.mem_cons_of_mem _ hx)
                rw [heq, hpre] at this
                cases this
            have hres := ih _ _ _ _ _ _ _ h
              (fun x hx => hnd x (List.mem_cons_of_mem _ hx)) hreadr rf hrf hsupp'
            rcases hres with hp | hdb | hdec
            · rcases List.mem_cons.mp hp with heq | hp'
              · rw [heq]
                refine Or.inr (Or.inl ⟨P, ?_⟩)
                refine photoLoop_db_mono cfg o u fuel _ _ _ _ _ _ _ _ h _ ?_
                rw [hrec]
                exact List.mem_append_right _ (List.mem_singleton.mpr rfl)
              · exact Or.inl hp'
            · exact Or.inr (Or.inl hdb)
            · exact Or.inr (Or.inr hdec)
        | error =>
          obtain ⟨hfs, -⟩ := single_no_change cfg o u fuel fs root f _ _ _ hout
            (by simp)
          rw [hfs] at h
          rcases List.mem_cons.mp hrf with hrf | hrf
          · cases hrf
            refine Or.inr (Or.inr ?_)
            have hdec := single_error_dec cfg o u fuel fs root f dh _ _ hreadh
              hout
            have hgrow := photoLoop_grows cfg o u fuel how _ _ _ _ _ _ _ _ h
            rw [photoDecision_stable cfg o u fuel root f hgrow
              (hnd (root, f) (List.mem_cons_self _ _)) (Or.inr (Or.inl hdec)),
              hdec]
            exact Or.inr (Or.inl rfl)
          · exact ih _ _ _ _ _ _ _ h
              (fun x hx => hnd x (List.mem_cons_of_mem _ hx))
              (fun x hx => hread x (List.mem_cons_of_mem _ hx)) rf hrf hsupp'
        | raised k =>
          obtain ⟨hfs, -⟩ := single_no_change cfg o u fuel fs root f _ _ _ hout
            (by simp)
          rw [hfs] at h
          rcases List.mem_cons.mp hrf with hrf | hrf
          · cases hrf
            refine Or.inr (Or.inr ?_)
            have hdec := single_raised_dec cfg o u fuel fs root f k _ _ hout
            have hgrow := photoLoop_grows cfg o u fuel how _ _ _ _ _ _ _ _ h
            rw [photoDecision_stable cfg o u fuel root f hgrow
              (hnd (root, f) (List.mem_cons_self _ _))
              (Or.inr (Or.inr ⟨k, hdec⟩)), hdec]
            exact Or.inr (Or.inr ⟨k, rfl⟩)
          · exact ih _ _ _ _ _ _ _ h
              (fun x hx => hnd x (List.mem_cons_of_mem _ hx))
              (fun x hx => hread x (List.mem_cons_of_mem _ hx)) rf hrf hsupp'
        | diverged => cases h
    · rw [if_neg hsupp] at h
      rcases List.mem_cons.mp hrf with hrf | hrf
      · cases hrf
        exact absurd hsupp' hsupp
      · exact ih _ _ _ _ _ _ _ h (fun x hx => hnd x (List.mem_cons_of_mem _ hx))
          (fun x hx => hread x (List.mem_cons_of_mem _ hx)) rf hrf hsupp'

/-- A pass in which every supported file is either in the processed set or
decided as a non-copy completes without touching the filesystem or the
records and copies nothing. -/
theorem photoLoop_noop (cfg : Config) (o : Oracles) (u : Nat → String)
    (fuel : Nat) :
    ∀ (l : List (String × String)) (fs : FS) (db : DB) (proc : List String)
      (c : Counts),
      (∀ rf ∈ l, isSupported cfg.supportedTypes rf.2 = true →
        (joinPath rf.1 rf.2 ∈ proc)
        ∨ DecOSE (photoDecision cfg o u fuel fs rf.1 rf.2)) →
      ∃ c', photoLoop cfg o u fuel l fs db proc c = .done fs db c'
        ∧ c'.copies = c.copies := by
  intro l
  induction l with
  | nil => intro fs db proc c _; exact ⟨c, rfl, rfl⟩
  | cons rf0 rest ih =>
    intro fs db proc c hinv
    obtain ⟨root, f⟩ := rf0
    simp only [photoLoop]
    by_cases hsupp : isSupported cfg.supportedTypes f = true
    · rw [if_pos hsupp]
      by_cases hmem : joinPath root f ∈ proc
      · rw [if_pos hmem]
        obtain ⟨c', hc', hcop⟩ := ih fs db proc
          { c with files := c.files + 1, skips := c.skips + 1 }
          (fun x hx => hinv x (List.mem_cons_of_mem _ hx))
        exact ⟨c', hc', hcop⟩
      · rw [if_neg hmem]
        rcases hinv (root, f) (List.mem_cons_self _ _) hsupp with hp | hdec
        · exact absurd hp hmem
        · rcases hdec with hdec | hdec | ⟨k, hdec⟩
          · rw [show process_single_photo cfg o u fuel fs root f
                = (.skipped, fs, none) by
              unfold process_single_photo; rw [hdec]]
            exact ih fs db proc _ (fun x hx => hinv x (List.mem_cons_of_mem _ hx))
          · rw [show process_single_photo cfg o u fuel fs root f
                = (.error, fs, none) by
              unfold process_single_photo; rw [hdec]]
            exact ih fs db proc _ (fun x hx => hinv x (List.mem_cons_of_mem _ hx))
          · rw [show process_single_photo cfg o u fuel fs root f
                = (.raised k, fs, none) by
              unfold process_single_photo; rw [hdec]]
            exact ih fs db proc _ (fun x hx => hinv x (List.mem_cons_of_mem _ hx))
    · rw [if_neg hsupp]
      exact ih fs db proc c (fun x hx => hinv x (List.mem_cons_of_mem _ hx))

/-- Membership in the loaded processed set is having a record whose source
path matches the `LIKE 'source_dir%'` filter. -/
theorem mem_loadProcessed (db : DB) (s p : String) :
    p ∈ loadProcessed db s ↔ ∃ dst, (p, dst) ∈ db ∧ strPrefix s p = true := by
  unfold loadProcessed
  simp only [List.mem_map, List.mem_filter]
  constructor
  · rintro ⟨⟨q, dst⟩, ⟨hmem, hpre⟩, hq⟩
    cases hq
    exact ⟨dst, hmem, hpre⟩
  · rintro ⟨dst, hmem, hpre⟩
    exact ⟨(p, dst), ⟨hmem, hpre⟩, rfl⟩

/-! ## Claim C2: the theorems -/

/-- Counterexample to claim C2: a readable source file with no embedded
metadata, no filename date pattern and an inaccessible modification time
errors on the first run and errors again — is not skipped — on the second
run (second-run counters: 1 file, 0 copies, 0 skips, 1 error), even
though zero new files and records are produced. -/
theorem claim2_counterexample :
    ∃ fs1 db1,
      process_photos exCfgP exNoOracles (fun _ => "u") 5 [("/src", "nodate.jpg")]
          exFsNd [] = .done fs1 db1 ⟨1, 0, 0, 1⟩
      ∧ process_photos exCfgP exNoOracles (fun _ => "u") 5
          [("/src", "nodate.jpg")] fs1 db1 = .done fs1 db1 ⟨1, 0, 0, 1⟩ :=
  ⟨exFsNd, [], rfl, rfl⟩

/-- Claim C2 as amended: under a non-overwrite policy, over an unchanged
walk of readable source files disjoint from the destination directory, a
second run of the photo pass from the state a completed first run left
behind copies zero new destination files and inserts zero new records
(the final filesystem and record list are exactly those of the first
run); every file the first run copied or skipped is skipped again — via
the loaded processed set or the identical-content check — but a file the
first run counted as an error errors again rather than being skipped. -/
theorem claim2_second_pass_noop (cfg : Config) (o : Oracles)
    (u : Nat → String) (fuel : Nat) (files : List (String × String))
    (fs0 fs1 : FS) (db0 db1 : DB) (c1 : Counts)
    (how : cfg.overwrite = false)
    (hsrc : ∀ rf ∈ files, strPrefix cfg.sourceDir (joinPath rf.1 rf.2) = true)
    (hnd : ∀ rf ∈ files,
      strPrefix (cfg.destDir ++ "/") (joinPath rf.1 rf.2) = false)
    (hread : ∀ rf ∈ files, ∃ d, fs0 (joinPath rf.1 rf.2) = .present d)
    (h1 : process_photos cfg o u fuel files fs0 db0 = .done fs1 db1 c1) :
    ∃ c2, process_photos cfg o u fuel files fs1 db1 = .done fs1 db1 c2
      ∧ c2.copies = 0 := by
  unfold process_photos at h1 ⊢
  have hinv := photoLoop_run1_inv cfg o u fuel how files fs0 db0
    (loadProcessed db0 cfg.sourceDir) Counts.zero fs1 db1 c1 h1 hnd hread
  have hinv2 : ∀ rf ∈ files, isSupported cfg.supportedTypes rf.2 = true →
      (joinPath rf.1 rf.2 ∈ loadProcessed db1 cfg.sourceDir)
      ∨ DecOSE (photoDecision cfg o u fuel fs1 rf.1 rf.2) := by
    intro rf hrf hsupp
    rcases hinv rf hrf hsupp with hp | ⟨dst, hdb⟩ | hdec
    · rcases (mem_loadProcessed db0 cfg.sourceDir _).mp hp with ⟨dst, hmem, hpre⟩
      exact Or.inl ((mem_loadProcessed db1 cfg.sourceDir _).mpr
        ⟨dst, photoLoop_db_mono cfg o u fuel _ _ _ _ _ _ _ _ h1 _ hmem, hpre⟩)
    · exact Or.inl ((mem_loadProcessed db1 cfg.sourceDir _).mpr
        ⟨dst, hdb, hsrc rf hrf⟩)
    · exact Or.inr hdec
  obtain ⟨c2, hc2, hcop⟩ := photoLoop_noop cfg o u fuel files fs1 db1
    (loadProcessed db1 cfg.sourceDir) Counts.zero hinv2
  exact ⟨c2, hc2, hcop⟩

/-- Witness for the amended C2: the single-file tree whose first run
copies the file; the second run leaves the filesystem and the one-record
database unchanged with zero copies. -/
theorem claim2_second_pass_noop_witness :
    ∃ c2, process_photos exCfgP exNoOracles (fun _ => "u") 5
        [("/src", "a_20240101_101010.jpg")]
        (exFsA.update "/dst/2024/a_20240101_101010.jpg" (.present 3))
        [("/src/a_20240101_101010.jpg", "/dst/2024/a_20240101_101010.jpg")]
      = .done (exFsA.update "/dst/2024/a_20240101_101010.jpg" (.present 3))
          [("/src/a_20240101_101010.jpg", "/dst/2024/a_20240101_101010.jpg")]
          c2
      ∧ c2.copies = 0 := by
  refine claim2_second_pass_noop exCfgP exNoOracles (fun _ => "u") 5
    [("/src", "a_20240101_101010.jpg")] exFsA
    (exFsA.update "/dst/2024/a_20240101_101010.jpg" (.present 3))
    [] [("/src/a_20240101_101010.jpg", "/dst/2024/a_20240101_101010.jpg")]
    ⟨1, 1, 0, 0⟩ rfl ?_ ?_ ?_ rfl
  · intro rf hrf
    rcases List.mem_cons.mp hrf with h | h
    · cases h; decide
    · cases h
  · intro rf hrf
    rcases List.mem_cons.mp hrf with h | h
    · cases h; decide
    · cases h
  · intro rf hrf
    rcases List.mem_cons.mp hrf with h | h
    · cases h; exact ⟨3, by decide⟩
    · cases h

end PhotoArc
